import Mathlib

/-!
Shallow embedding of the `recommendation_system` repository
(`main.py`, `recommendation_algorithms.py`, `feature_engineering.py`),
with theorems checking the natural-language specification against it.

Modelling conventions:
* Python dicts are insertion-ordered association lists (`Dict` below);
  all iteration in the source walks dicts in that order.
* Python floats are modelled as exact rationals (`ℚ`).
* The Redis client is modelled as a `Store` of two oracles (`get`/`set`)
  whose outcomes include a store failure, mirroring `redis.RedisError`;
  cached payloads are either a decodable recommendation list or
  undecodable bytes (`Payload.bad`, mirroring a `json.JSONDecodeError`).
* `datetime.now().strftime` is modelled by passing the current day name
  as an explicit `current_day` argument.
* Environment-variable weight configuration (`os.getenv`) is modelled by
  an explicit `Cfg` record; `defaultCfg` holds the source's defaults.
* Python exceptions are modelled with `Except PyErr`.
-/

namespace RecSys

/-- Python-level exceptions raised by the embedded code:
`redis.RedisError`, `KeyError`, `ValueError`. -/
inductive PyErr
  | redisError
  | keyError
  | valueError
deriving DecidableEq, Repr

abbrev UserId := Nat

abbrev ProductId := Nat

/-- An insertion-ordered Python dict, modelled as an association list. -/
abbrev Dict (κ ν : Type) := List (κ × ν)

/-- First binding of a key in a dict (`d[k]` / `d.get(k)`). -/
def dget {κ ν : Type} [DecidableEq κ] : Dict κ ν → κ → Option ν
  | [], _ => none
  | kv :: rest, k => if kv.1 = k then some kv.2 else dget rest k

/-- The keys of a dict, in insertion order. -/
def dkeys {κ ν : Type} (d : Dict κ ν) : List κ := d.map Prod.fst

/-- The values of a dict, in insertion order (`d.values()`). -/
def dvalues {κ ν : Type} (d : Dict κ ν) : List ν := d.map Prod.snd

/-- `max(l, default=dflt)` over rationals. -/
def maxOrDefault (l : List ℚ) (dflt : ℚ) : ℚ :=
  match l with
  | [] => dflt
  | x :: xs => xs.foldl max x

/-- Stable insertion of `a` into `l`: `a` is placed before the first
element `b` with `le a b`. -/
def insertS {α : Type} (le : α → α → Bool) (a : α) : List α → List α
  | [] => [a]
  | b :: l => if le a b then a :: b :: l else b :: insertS le a l

/-- Stable sort with respect to `le` (Python's `sorted` is a stable sort;
ties keep their input order when `le` holds on equal elements). -/
def isortS {α : Type} (le : α → α → Bool) : List α → List α
  | [] => []
  | a :: l => insertS le a (isortS le l)

/-- `sorted(pairs, key=lambda x: x[1], reverse=True)`: stable sort of
(id, score) pairs by score, descending. -/
def sortByScoreDesc (l : List (ProductId × ℚ)) : List (ProductId × ℚ) :=
  isortS (fun a b => decide (b.2 ≤ a.2)) l

/-- `np.argsort(scores)`: indices of `scores` sorted by value ascending.
Modelled as a stable sort (ties resolved by index; `np.argsort`'s tie
order is unspecified and no claim depends on it). -/
def argsortAsc (scores : List ℚ) : List Nat :=
  isortS (fun i j => decide (scores.getD i 0 ≤ scores.getD j 0)) (List.range scores.length)

/-- Python's `list.index`, returning `none` instead of raising `ValueError`. -/
def pyIndex {α : Type} [DecidableEq α] : List α → α → Option Nat
  | [], _ => none
  | y :: ys, x => if y = x then some 0 else (pyIndex ys x).map (· + 1)

/-- First-occurrence order of the elements of `l` (dedup keeping the first). -/
def firstOccur {α : Type} [DecidableEq α] (l : List α) : List α :=
  l.foldl (fun acc x => if x ∈ acc then acc else acc ++ [x]) []

/-- Dot product of two rational vectors (`numpy` dot; lengths agree in the source). -/
def dotQ (a b : List ℚ) : ℚ := ((a.zip b).map (fun p => p.1 * p.2)).sum

/-- A user record (`data_loading.load_data`): name, location, device. -/
structure User where
  name : String
  location : String
  device : String
deriving DecidableEq

/-- A product record: name, category, tags, rating, device suitability. -/
structure Product where
  name : String
  category : String
  tags : List String
  rating : ℚ
  device_suitability : List String
deriving DecidableEq

/-- A contextual signal record (`contextual_signals` values): peak days and season. -/
structure CtxSignal where
  peak_days : List String
  season : String
deriving DecidableEq

/-- A browsing-history entry: (product id, timestamp). -/
abbrev Browse := ProductId × String

/-- A purchase-history entry: (product id, quantity, timestamp). -/
abbrev Purchase := ProductId × Nat × String

/-- The set of product ids the user purchased:
`p[0] for p in purchase_history.get(user_id, [])`. -/
def purchasedIds (purchase_history : Dict UserId (List Purchase)) (user_id : UserId) :
    List ProductId :=
  ((dget purchase_history user_id).getD []).map (fun p => p.1)

/-- `feature_engineering.create_product_feature_vector`, tag loop: sets the
bit of each tag of the product in the tag vector, raising `ValueError`
(via `list.index`) on a tag outside the vocabulary. -/
def setTagBits (all_tags : List String) : List String → List ℚ → Except PyErr (List ℚ)
  | [], v => Except.ok v
  | tag :: rest, v =>
    match pyIndex all_tags tag with
    | none => Except.error PyErr.valueError
    | some i => setTagBits all_tags rest (v.set i 1)

/-- `feature_engineering.create_product_feature_vector`: one-hot tag segment
followed by a one-hot category segment; `list.index` raises `ValueError`
for a tag or category outside its vocabulary. -/
def create_product_feature_vector (product : Product) (all_tags all_categories : List String) :
    Except PyErr (List ℚ) :=
  match setTagBits all_tags product.tags (List.replicate all_tags.length 0) with
  | Except.error e => Except.error e
  | Except.ok tag_vector =>
    match pyIndex all_categories product.category with
    | none => Except.error PyErr.valueError
    | some i => Except.ok (tag_vector ++ (List.replicate all_categories.length 0).set i 1)

/-- `recommendation_algorithms.recommend_products_mf`: latent-factor scores
(item factors times the user's factor row), descending, purchased products
removed, truncated to `top_n`.  Unknown user id yields `[]`. -/
def recommend_products_mf (user_id : UserId) (user_factors item_factors : List (List ℚ))
    (user_index product_index : Dict Nat Nat)
    (purchase_history : Dict UserId (List Purchase)) (top_n : Nat) : List ProductId :=
  if user_id ∈ dkeys user_index then
    let user_vector := user_factors.getD ((dget user_index user_id).getD 0) []
    let scores := item_factors.map (fun row => dotQ row user_vector)
    let sorted_indices := (argsortAsc scores).reverse
    let sorted_products := sorted_indices.map (fun i => (dkeys product_index).getD i 0)
    let purchased := purchasedIds purchase_history user_id
    (sorted_products.filter (fun pid => decide (pid ∉ purchased))).take top_n
  else []

/-- Comparison `a / sqrt b ≥ c / sqrt d` for `b, d > 0`, carried out in exact
rational arithmetic (sign analysis plus squared comparison). -/
def simGeQ (a b c d : ℚ) : Bool :=
  if 0 ≤ a then (if 0 ≤ c then decide (c * c * b ≤ a * a * d) else true)
  else (if 0 ≤ c then false else decide (a * a * d ≤ c * c * b))

/-- Model of `sklearn.neighbors.NearestNeighbors(metric=cosine).kneighbors`:
indices of the `k` vectors of `vecs` nearest to `profile` under cosine
distance, i.e. of greatest cosine similarity, in exact rational arithmetic
(ties resolved by index; the source's vectors have positive norms). -/
def kneighborsCosine (profile : List ℚ) (vecs : List (List ℚ)) (k : Nat) : List Nat :=
  (isortS (fun i j =>
      simGeQ (dotQ profile (vecs.getD i [])) (dotQ (vecs.getD i []) (vecs.getD i []))
        (dotQ profile (vecs.getD j [])) (dotQ (vecs.getD j []) (vecs.getD j [])))
    (List.range vecs.length)).take k

/-- `recommendation_algorithms.recommend_products_cbf`: looks up the user's
profile (`user_profiles[user_id]` raises `KeyError` when absent), takes the
`top_n` nearest product vectors, removes purchased products, truncates. -/
def recommend_products_cbf (user_id : UserId) (user_profiles : Dict UserId (List ℚ))
    (product_feature_vectors : Dict ProductId (List ℚ))
    (purchase_history : Dict UserId (List Purchase)) (top_n : Nat) :
    Except PyErr (List ProductId) :=
  match dget user_profiles user_id with
  | none => Except.error PyErr.keyError
  | some user_profile =>
    let idxs := kneighborsCosine user_profile (dvalues product_feature_vectors) top_n
    let keys := dkeys product_feature_vectors
    let purchased := purchasedIds purchase_history user_id
    Except.ok
      (((idxs.map (fun i => keys.getD i 0)).filter (fun pid => decide (pid ∉ purchased))).take top_n)

/-- `recommendation_algorithms.recommend_popular_trending_products`: the
precomputed popularity ranking with the user's purchased products removed,
truncated to `top_n`. -/
def recommend_popular_trending_products (user_id : UserId)
    (popular_products : List (ProductId × ℚ))
    (purchase_history : Dict UserId (List Purchase)) (top_n : Nat) : List ProductId :=
  let purchased := purchasedIds purchase_history user_id
  ((popular_products.map Prod.fst).filter (fun pid => decide (pid ∉ purchased))).take top_n

/-- `recommendation_algorithms.recommend_products_time_based`: all products
whose category has a contextual signal matching the current day and an
active season.  No purchase filtering and no truncation. -/
def recommend_products_time_based (current_day : String) (season_input : List String)
    (products : Dict ProductId Product) (contextual_signals : Dict String CtxSignal) :
    List ProductId :=
  let trending_categories :=
    (contextual_signals.filter
      (fun cs => decide (current_day ∈ cs.2.peak_days) && decide (cs.2.season ∈ season_input))).map
      Prod.fst
  (products.filter (fun pkv => decide (pkv.2.category ∈ trending_categories))).map Prod.fst

/-- `recommendation_algorithms.recommend_products_device_based`: all products
suitable for the user's device, minus purchased products, truncated to
`top_n`.  Unknown user id yields `[]`. -/
def recommend_products_device_based (user_id : UserId) (users : Dict UserId User)
    (products : Dict ProductId Product) (purchase_history : Dict UserId (List Purchase))
    (top_n : Nat) : List ProductId :=
  match dget users user_id with
  | none => []
  | some u =>
    let device_recommendations :=
      (products.filter (fun pkv => decide (u.device ∈ pkv.2.device_suitability))).map Prod.fst
    let filtered :=
      if user_id ∈ dkeys purchase_history then
        device_recommendations.filter
          (fun pid => decide (pid ∉ purchasedIds purchase_history user_id))
      else device_recommendations
    filtered.take top_n

/-- `main.compute_product_popularity`, frequency pass: `purchase_frequency`
is a `defaultdict(int)` keyed in first-occurrence order of the traversal of
`purchase_history`. -/
def bumpFreq (d : Dict ProductId Nat) (pid : ProductId) : Dict ProductId Nat :=
  if pid ∈ dkeys d then d.map (fun kv => if kv.1 = pid then (kv.1, kv.2 + 1) else kv)
  else d ++ [(pid, 1)]

/-- Purchase frequency of every purchased product, keys in first-occurrence
order of the traversal of `purchase_history`. -/
def purchaseFrequency (purchase_history : Dict UserId (List Purchase)) : Dict ProductId Nat :=
  purchase_history.foldl (fun acc ukv => ukv.2.foldl (fun acc2 p => bumpFreq acc2 p.1) acc) []

/-- `main.compute_product_popularity`, scoring pass with the source's default
weights: `0.7 * products[pid].rating + 0.3 * frequency`; `products[pid]`
raises `KeyError` for a purchased product missing from the catalog. -/
def rawPopularity (products : Dict ProductId Product) :
    Dict ProductId Nat → Except PyErr (Dict ProductId ℚ)
  | [] => Except.ok []
  | kv :: rest =>
    match dget products kv.1 with
    | none => Except.error PyErr.keyError
    | some pr =>
      match rawPopularity products rest with
      | Except.error e => Except.error e
      | Except.ok tail =>
        Except.ok ((kv.1, (7 : ℚ) / 10 * pr.rating + (3 : ℚ) / 10 * (kv.2 : ℚ)) :: tail)

/-- `main.compute_product_popularity`, normalization pass: divide every score
by `max(scores, default=1)`. -/
def normalizePopularity (pop : Dict ProductId ℚ) : Dict ProductId ℚ :=
  let m := maxOrDefault (dvalues pop) 1
  pop.map (fun kv => (kv.1, kv.2 / m))

/-- `main.compute_product_popularity` with its default weights `0.7`/`0.3`:
frequency pass, weighted scores, normalization, then
`sorted(..., key=x[1], reverse=True)`. -/
def compute_product_popularity (purchase_history : Dict UserId (List Purchase))
    (products : Dict ProductId Product) : Except PyErr (List (ProductId × ℚ)) :=
  match rawPopularity products (purchaseFrequency purchase_history) with
  | Except.error e => Except.error e
  | Except.ok pop => Except.ok (sortByScoreDesc (normalizePopularity pop))

/-- A recommendation-list entry as the Python code builds it: either a bare
product id (`Sum.inl`, the signal-exhaustion fallback) or a
(product id, explanation) pair (`Sum.inr`). -/
abbrev RecEntry := Sum ProductId (ProductId × String)

/-- A recommendation list (the hybrid engine's result surface). -/
abbrev RecList := List RecEntry

/-- The product ids of a recommendation list, pair or bare. -/
def entryIds (l : RecList) : List ProductId :=
  l.map (fun e => match e with | Sum.inl pid => pid | Sum.inr pr => pr.1)

/-- A cached value as the cache read sees it: decodable JSON for a
recommendation list, or undecodable bytes. -/
inductive Payload
  | good (v : RecList)
  | bad
deriving DecidableEq

/-- The Redis client, modelled as two oracles.  A `get` outcome is a store
failure (`redis.RedisError`), a missing key, or a payload; a `set` outcome
is a store failure or success. -/
structure Store where
  get : String → Except Unit (Option Payload)
  set : String → Except Unit Unit

/-- The cache key built by both `main.cache_recommendations` and
`main.get_cached_recommendations`:
the literal `recommendations:`, the user id, `:`, and
`','.join(season_input)` in the given (unsorted) order. -/
def hybridCacheKey (user_id : UserId) (season_input : List String) : String :=
  "recommendations:" ++ toString user_id ++ ":" ++ String.intercalate "," season_input

/-- `main.get_cached_recommendations`: reads the cache key.  A store failure
propagates (the source wraps only `json.loads`, not `redis_client.get`, in
a handler); a missing key or an undecodable payload yields `none`. -/
def get_cached_recommendations (store : Store) (user_id : UserId)
    (season_input : List String) : Except PyErr (Option RecList) :=
  match store.get (hybridCacheKey user_id season_input) with
  | Except.error _ => Except.error PyErr.redisError
  | Except.ok none => Except.ok none
  | Except.ok (some Payload.bad) => Except.ok none
  | Except.ok (some (Payload.good v)) => Except.ok (some v)

/-- `main.cache_recommendations`: writes the serialized list under the cache
key with a TTL.  The source catches only serialization errors
(`TypeError`/`json.JSONDecodeError`, never raised for these values), so a
store failure from `setex` propagates.  Returns the performed writes. -/
def cache_recommendations (store : Store) (user_id : UserId) (season_input : List String)
    (recommendations : RecList) : Except PyErr (List (String × RecList)) :=
  match store.set (hybridCacheKey user_id season_input) with
  | Except.error _ => Except.error PyErr.redisError
  | Except.ok _ => Except.ok [(hybridCacheKey user_id season_input, recommendations)]

/-- The signal-weight configuration surface (`os.getenv` in the source). -/
structure Cfg where
  mf_weight : ℚ
  cbf_weight : ℚ
  popular_weight : ℚ
  time_base_weight : ℚ
  device_weight : ℚ
  new_user_mf_weight : ℚ
  new_user_cbf_weight : ℚ
  new_user_popular_weight : ℚ
  new_user_time_base_weight : ℚ
  new_user_device_weight : ℚ
deriving DecidableEq

/-- The source's default weights: `0.5/0.4/0.3/0.2/0.2` for returning users,
`0.0/0.0/0.5/0.3/0.2` for new users. -/
def defaultCfg : Cfg :=
  ⟨1/2, 2/5, 3/10, 1/5, 1/5, 0, 0, 1/2, 3/10, 1/5⟩

/-- `main.EXPLANATION_TEMPLATES`. -/
def explanationTemplate (source : String) : String :=
  if source = "mf" then "Recommended because users similar to you purchased this."
  else if source = "cbf" then "Recommended because it matches your interests."
  else if source = "popular" then "Recommended because it's popular among other users."
  else if source = "time_based" then "Recommended because it's trending this season."
  else if source = "device_based" then "Recommended because it's suitable for your device."
  else ""

/-- `user_id not in browsing_history and user_id not in purchase_history`. -/
abbrev isNewUser (browsing_history : Dict UserId (List Browse))
    (purchase_history : Dict UserId (List Purchase)) (user_id : UserId) : Prop :=
  user_id ∉ dkeys browsing_history ∧ user_id ∉ dkeys purchase_history

/-- `recommendation_scores[pid] += delta` on a `defaultdict(float)`: updates
in place, or appends at first touch. -/
def addScore (d : Dict ProductId ℚ) (pid : ProductId) (delta : ℚ) : Dict ProductId ℚ :=
  if pid ∈ dkeys d then d.map (fun kv => if kv.1 = pid then (kv.1, kv.2 + delta) else kv)
  else d ++ [(pid, delta)]

/-- `recommendation_sources[pid].append(name)` on a `defaultdict(list)`. -/
def addSource (d : Dict ProductId (List String)) (pid : ProductId) (name : String) :
    Dict ProductId (List String) :=
  if pid ∈ dkeys d then d.map (fun kv => if kv.1 = pid then (kv.1, kv.2 ++ [name]) else kv)
  else d ++ [(pid, [name])]

/-- The accumulated fusion state: scores and contributing signal names. -/
abbrev FuseState := Dict ProductId ℚ × Dict ProductId (List String)

/-- One step of a fusion loop body, at enumerate index `ip.1`, product
`ip.2`, full list length `L`:
`scores[pid] += w * (1 - i / L); sources[pid].append(name)`. -/
def signalStep (L : Nat) (name : String) (w : ℚ) (st : FuseState) (ip : Nat × ProductId) :
    FuseState :=
  (addScore st.1 ip.2 (w * (1 - (ip.1 : ℚ) / (L : ℚ))), addSource st.2 ip.2 name)

/-- One fusion loop of `main.recommend_products_hybrid`
(`for i, product_id in enumerate(lst)`). -/
def applySignal (name : String) (w : ℚ) (lst : List ProductId) (st : FuseState) : FuseState :=
  lst.enum.foldl (signalStep lst.length name w) st

/-- The five fusion loops of `main.recommend_products_hybrid`, in source
order: mf, cbf, popular, time_based, device_based. -/
def fuseSignals (mfW cbfW popW timeW devW : ℚ)
    (mfL cbfL popL timeL devL : List ProductId) : FuseState :=
  applySignal "device_based" devW devL
    (applySignal "time_based" timeW timeL
      (applySignal "popular" popW popL
        (applySignal "cbf" cbfW cbfL
          (applySignal "mf" mfW mfL ([], [])))))

/-- The aggregate score recorded for `pid` (0 when never touched). -/
def scoreOf (d : Dict ProductId ℚ) (pid : ProductId) : ℚ := (dget d pid).getD 0

/-- The cache-miss body of `main.recommend_products_hybrid` (everything
after the cache check), named so that the path analysis can refer to it. -/
def hybridUncached (store : Store) (current_day : String) (cfg : Cfg)
    (user_id : UserId) (season_input : List String)
    (users : Dict UserId User) (products : Dict ProductId Product)
    (contextual_signals : Dict String CtxSignal)
    (browsing_history : Dict UserId (List Browse))
    (purchase_history : Dict UserId (List Purchase))
    (popular_products : List (ProductId × ℚ))
    (user_factors item_factors : List (List ℚ))
    (user_index product_index : Dict Nat Nat)
    (user_profiles : Dict UserId (List ℚ))
    (product_feature_vectors : Dict ProductId (List ℚ))
    (top_n : Nat) : Except PyErr (RecList × List (String × RecList)) :=
    let popular_recommendations :=
      recommend_popular_trending_products user_id popular_products purchase_history top_n
    if isNewUser browsing_history purchase_history user_id then
      Except.ok
        (popular_recommendations.map (fun pid => Sum.inr (pid, explanationTemplate "popular")), [])
    else
      let mf_recommendations :=
        if isNewUser browsing_history purchase_history user_id then []
        else
          recommend_products_mf user_id user_factors item_factors user_index product_index
            purchase_history top_n
      match (if isNewUser browsing_history purchase_history user_id then Except.ok []
             else
               recommend_products_cbf user_id user_profiles product_feature_vectors
                 purchase_history top_n) with
      | Except.error e => Except.error e
      | Except.ok cbf_recommendations =>
        let time_based_recommendations :=
          recommend_products_time_based current_day season_input products contextual_signals
        let device_recommendations :=
          recommend_products_device_based user_id users products purchase_history top_n
        if mf_recommendations = [] ∧ cbf_recommendations = [] ∧
            time_based_recommendations = [] ∧ device_recommendations = [] then
          Except.ok ((popular_recommendations.take top_n).map Sum.inl, [])
        else
          let new := isNewUser browsing_history purchase_history user_id
          let mf_weight := if new then cfg.new_user_mf_weight else cfg.mf_weight
          let cbf_weight := if new then cfg.new_user_cbf_weight else cfg.cbf_weight
          let popular_weight := if new then cfg.new_user_popular_weight else cfg.popular_weight
          let time_base_weight :=
            if new then cfg.new_user_time_base_weight else cfg.time_base_weight
          let device_weight := if new then cfg.new_user_device_weight else cfg.device_weight
          let fused := fuseSignals mf_weight cbf_weight popular_weight time_base_weight
            device_weight mf_recommendations cbf_recommendations popular_recommendations
            time_based_recommendations device_recommendations
          let sorted_recommendations := sortByScoreDesc fused.1
          let top_recommendations := (sorted_recommendations.take top_n).map
            (fun sc => Sum.inr
              (sc.1, String.intercalate ", " (((dget fused.2 sc.1).getD []).map
                explanationTemplate)))
          match cache_recommendations store user_id season_input top_recommendations with
          | Except.error e => Except.error e
          | Except.ok writes => Except.ok (top_recommendations, writes)

/-- `main.recommend_products_hybrid`.  Returns the recommendation list
together with the cache writes it performed.  A truthy cached value is
returned verbatim; `None`, undecodable bytes, and a cached empty list (all
falsy) fall through to the direct computation `hybridUncached`. -/
def recommend_products_hybrid (store : Store) (current_day : String) (cfg : Cfg)
    (user_id : UserId) (season_input : List String)
    (users : Dict UserId User) (products : Dict ProductId Product)
    (contextual_signals : Dict String CtxSignal)
    (browsing_history : Dict UserId (List Browse))
    (purchase_history : Dict UserId (List Purchase))
    (popular_products : List (ProductId × ℚ))
    (user_factors item_factors : List (List ℚ))
    (user_index product_index : Dict Nat Nat)
    (user_profiles : Dict UserId (List ℚ))
    (product_feature_vectors : Dict ProductId (List ℚ))
    (top_n : Nat) : Except PyErr (RecList × List (String × RecList)) :=
  match get_cached_recommendations store user_id season_input with
  | Except.error e => Except.error e
  | Except.ok (some (r :: rs)) => Except.ok (r :: rs, [])
  | Except.ok _ =>
    hybridUncached store current_day cfg user_id season_input users products
      contextual_signals browsing_history purchase_history popular_products user_factors
      item_factors user_index product_index user_profiles product_feature_vectors top_n

/-- A cache read for this (user, season) behaves as a miss: the store has no
truthy decodable entry (`None`, undecodable bytes, or an empty list). -/
def cacheMissAt (store : Store) (user_id : UserId) (season_input : List String) : Prop :=
  get_cached_recommendations store user_id season_input = Except.ok none ∨
  get_cached_recommendations store user_id season_input = Except.ok (some [])

/-- Lexicographic code-point order on character lists (Python's `str`
ordering). -/
def charListLeB : List Char → List Char → Bool
  | [], _ => true
  | _ :: _, [] => false
  | c :: cs, d :: ds =>
    if c.val < d.val then true else if d.val < c.val then false else charListLeB cs ds

/-- Lexicographic code-point order on strings (Python's `str` ordering). -/
def strLeB (a b : String) : Bool := charListLeB a.data b.data

/-- From the spec's words ("comma-joined season labels in sorted order"):
the cache key the specification describes.  To be compared with
`hybridCacheKey`, which the code builds. -/
def specSortedCacheKey (user_id : UserId) (season_input : List String) : String :=
  "recommendations:" ++ toString user_id ++ ":" ++
    String.intercalate "," (isortS strLeB season_input)

/-- From the spec's words (step 4 of the fusion engine): the contribution of
one recommender's ranked output to `pid`: `weight * (1 - i / L)` at 0-indexed
rank `i`, list length `L`; nothing when `pid` is not ranked. -/
def specContribution (w : ℚ) (lst : List ProductId) (pid : ProductId) : ℚ :=
  if pid ∈ lst then w * (1 - ((pyIndex lst pid).getD 0 : ℚ) / (lst.length : ℚ)) else 0

/-- From the spec's words: the aggregate score of `pid`, summed additively
across the five recommenders. -/
def specAggregate (mfW cbfW popW timeW devW : ℚ)
    (mfL cbfL popL timeL devL : List ProductId) (pid : ProductId) : ℚ :=
  specContribution mfW mfL pid + specContribution cbfW cbfL pid +
    specContribution popW popL pid + specContribution timeW timeL pid +
    specContribution devW devL pid

/-- The fusion-path scores-and-sources state of
`main.recommend_products_hybrid` for a returning user, with the returning
user weights of `cfg` (the source reaches the fusion step only after the
new-user early return). -/
def fusionScores (cfg : Cfg) (mfL cbfL popL timeL devL : List ProductId) : FuseState :=
  fuseSignals cfg.mf_weight cfg.cbf_weight cfg.popular_weight cfg.time_base_weight
    cfg.device_weight mfL cbfL popL timeL devL

/-- The fusion-path final list of `main.recommend_products_hybrid` for a
returning user: sort the aggregate scores descending (stable), take
`top_n`, attach the joined explanation templates of the contributing
signals. -/
def fusionTop (cfg : Cfg) (top_n : Nat) (mfL cbfL popL timeL devL : List ProductId) :
    RecList :=
  ((sortByScoreDesc (fusionScores cfg mfL cbfL popL timeL devL).1).take top_n).map
    (fun sc => Sum.inr
      (sc.1, String.intercalate ", "
        (((dget (fusionScores cfg mfL cbfL popL timeL devL).2 sc.1).getD []).map
          explanationTemplate)))

/-- The product ids of the purchase-history traversal, in traversal order
(outer loop over users in dict order, inner loop over their purchases). -/
def purchaseTraversal (ph : Dict UserId (List Purchase)) : List ProductId :=
  (ph.map (fun ukv => ukv.2.map (fun p => p.1))).flatten

/-- From the spec's words: the product has at least one purchase in the
purchase history. -/
def purchasedAnywhere (ph : Dict UserId (List Purchase)) (pid : ProductId) : Prop :=
  pid ∈ purchaseTraversal ph

/-! Concrete stores and scenarios used by counterexamples and witnesses. -/

/-- A store whose reads always miss and whose writes succeed. -/
def storeMiss : Store := ⟨fun _ => Except.ok none, fun _ => Except.ok ()⟩

/-- A store whose reads raise a store error (`redis.RedisError`). -/
def storeGetErr : Store := ⟨fun _ => Except.error (), fun _ => Except.ok ()⟩

/-- A store whose reads miss and whose writes raise a store error. -/
def storeSetErr : Store := ⟨fun _ => Except.ok none, fun _ => Except.error ()⟩

/-- Scenario A: user 3 has purchased product 103 (category Fitness), and
Fitness is trending (peak day Monday, season Summer). -/
def usersA : Dict UserId User := [(3, ⟨"Charlie", "Chicago", "mobile"⟩)]

def productsA : Dict ProductId Product :=
  [(103, ⟨"Yoga Mat", "Fitness", ["yoga"], 47/10, ["tablet"]⟩)]

def signalsA : Dict String CtxSignal := [("Fitness", ⟨["Monday"], "Summer"⟩)]

def purchaseA : Dict UserId (List Purchase) := [(3, [(103, 1, "2025-03-04 12:00:00")])]

def popularA : List (ProductId × ℚ) := [(103, 1)]

/-- Scenario A, bundled call of the hybrid engine.  `top_n = 1` keeps the
content-based neighbor count within the one-product catalog (sklearn
requires `n_neighbors` at most the number of fitted samples). -/
def hybridA (store : Store) : Except PyErr (RecList × List (String × RecList)) :=
  recommend_products_hybrid store "Monday" defaultCfg 3 ["Summer"] usersA productsA signalsA
    [] purchaseA popularA [[0, 0]] [[0, 0]] [(3, 0)] [(103, 0)] [(3, [1, 1])]
    [(103, [1, 1])] 1

/-- Scenario B: user 7 purchased products 101–105 (category A); product 106
(category B) was purchased only by user 8.  User 7 is absent from `users`
and from the factor index, no contextual signal is active. -/
def productsB : Dict ProductId Product :=
  [(101, ⟨"P1", "A", ["t1"], 4, []⟩), (102, ⟨"P2", "A", ["t2"], 4, []⟩),
   (103, ⟨"P3", "A", ["t3"], 4, []⟩), (104, ⟨"P4", "A", ["t4"], 4, []⟩),
   (105, ⟨"P5", "A", ["t5"], 4, []⟩), (106, ⟨"P6", "B", ["t6"], 4, []⟩)]

def purchaseB : Dict UserId (List Purchase) :=
  [(7, [(101, 1, "t"), (102, 1, "t"), (103, 1, "t"), (104, 1, "t"), (105, 1, "t")]),
   (8, [(106, 1, "t")])]

def popularB : List (ProductId × ℚ) :=
  [(101, 1), (102, 1), (103, 1), (104, 1), (105, 1), (106, 1)]

def profileB : List ℚ := [1/5, 1/5, 1/5, 1/5, 1/5, 0, 1, 0]

def vectorsB : Dict ProductId (List ℚ) :=
  [(101, [1, 0, 0, 0, 0, 0, 1, 0]), (102, [0, 1, 0, 0, 0, 0, 1, 0]),
   (103, [0, 0, 1, 0, 0, 0, 1, 0]), (104, [0, 0, 0, 1, 0, 0, 1, 0]),
   (105, [0, 0, 0, 0, 1, 0, 1, 0]), (106, [0, 0, 0, 0, 0, 1, 0, 1])]

/-- Scenario B, bundled call of the hybrid engine. -/
def hybridB : Except PyErr (RecList × List (String × RecList)) :=
  recommend_products_hybrid storeMiss "Monday" defaultCfg 7 ["Summer"]
    [(8, ⟨"Bob", "LA", "desktop"⟩)] productsB [] [] purchaseB popularB
    [[0, 0]] [[0, 0]] [(8, 0)] [(101, 0)] [(7, profileB)] vectorsB 5

/-- Scenario C: user 999 is absent from both histories (a new user); two
products have purchase evidence from other users. -/
def purchaseC : Dict UserId (List Purchase) := [(1, [(101, 1, "t")]), (2, [(102, 1, "t")])]

def popularC : List (ProductId × ℚ) := [(101, 1), (102, 9/10)]

/-- Scenario C, bundled call of the hybrid engine. -/
def hybridC (store : Store) : Except PyErr (RecList × List (String × RecList)) :=
  recommend_products_hybrid store "Monday" defaultCfg 999 ["All Year", "Summer"]
    usersA productsA signalsA [] purchaseC popularC [[0, 0]] [[0, 0]] [(1, 0), (2, 0)]
    [(101, 0), (102, 1)] [(1, [1, 1]), (2, [1, 1])] [(103, [1, 1])] 5

/-- Scenario D: user 7 appears in browsing history but has no entry in
`user_profiles` (and is absent from `users` and the factor index). -/
def hybridD : Except PyErr (RecList × List (String × RecList)) :=
  recommend_products_hybrid storeMiss "Monday" defaultCfg 7 ["Summer"] [] productsA []
    [(7, [(103, "t")])] [] popularA [[0, 0]] [[0, 0]] [] [(103, 0)] [] [(103, [1, 1])] 5

/-- Scenario W: purchase history and catalog for the popularity ranker:
product 101 is bought twice (by users 1 and 2), product 102 once. -/
def purchaseW : Dict UserId (List Purchase) :=
  [(1, [(101, 1, "t"), (102, 1, "t")]), (2, [(101, 2, "t")])]

def productsW : Dict ProductId Product :=
  [(101, ⟨"A", "C", [], 4, []⟩), (102, ⟨"B", "C", [], 2, []⟩)]

/-! Generic lemmas about the helper structures. -/

theorem insertS_perm {α : Type} (le : α → α → Bool) (a : α) (l : List α) :
    (insertS le a l).Perm (a :: l) := by
  induction l with
  | nil => exact List.Perm.refl _
  | cons b l ih =>
    simp only [insertS]
    split
    · exact List.Perm.refl _
    · exact (ih.cons b).trans (List.Perm.swap a b l)

theorem isortS_perm {α : Type} (le : α → α → Bool) (l : List α) : (isortS le l).Perm l := by
  induction l with
  | nil => exact List.Perm.refl _
  | cons a l ih => exact (insertS_perm le a (isortS le l)).trans (ih.cons a)

theorem mem_insertS {α : Type} (le : α → α → Bool) (a x : α) (l : List α) :
    x ∈ insertS le a l ↔ x = a ∨ x ∈ l := by
  rw [(insertS_perm le a l).mem_iff, List.mem_cons]

theorem pairwise_insertS {α : Type} (le : α → α → Bool)
    (htot : ∀ a b, le a b = true ∨ le b a = true)
    (htrans : ∀ a b c, le a b = true → le b c = true → le a c = true)
    (a : α) (l : List α) (h : l.Pairwise (fun x y => le x y = true)) :
    (insertS le a l).Pairwise (fun x y => le x y = true) := by
  induction l with
  | nil => simp [insertS]
  | cons b l ih =>
    rw [List.pairwise_cons] at h
    simp only [insertS]
    split
    case isTrue hab =>
      rw [List.pairwise_cons]
      refine ⟨?_, List.Pairwise.cons h.1 h.2⟩
      intro c hc
      rcases List.mem_cons.mp hc with rfl | hc
      · exact hab
      · exact htrans a b c hab (h.1 c hc)
    case isFalse hab =>
      rw [List.pairwise_cons]
      refine ⟨?_, ih h.2⟩
      intro c hc
      rcases (mem_insertS le a c l).mp hc with rfl | hc
      · rcases htot c b with hcb | hbc
        · exact absurd hcb hab
        · exact hbc
      · exact h.1 c hc

theorem pairwise_isortS {α : Type} (le : α → α → Bool)
    (htot : ∀ a b, le a b = true ∨ le b a = true)
    (htrans : ∀ a b c, le a b = true → le b c = true → le a c = true)
    (l : List α) : (isortS le l).Pairwise (fun x y => le x y = true) := by
  induction l with
  | nil => simp [isortS]
  | cons a l ih => exact pairwise_insertS le htot htrans a _ ih

theorem sortByScoreDesc_perm (l : List (ProductId × ℚ)) : (sortByScoreDesc l).Perm l :=
  isortS_perm _ l

theorem sortByScoreDesc_pairwise (l : List (ProductId × ℚ)) :
    (sortByScoreDesc l).Pairwise (fun a b => b.2 ≤ a.2) := by
  have htot : ∀ a b : ProductId × ℚ,
      (decide (b.2 ≤ a.2)) = true ∨ (decide (a.2 ≤ b.2)) = true := by
    intro a b
    rcases le_total b.2 a.2 with h | h
    · exact Or.inl (decide_eq_true h)
    · exact Or.inr (decide_eq_true h)
  have htrans : ∀ a b c : ProductId × ℚ, decide (b.2 ≤ a.2) = true →
      decide (c.2 ≤ b.2) = true → decide (c.2 ≤ a.2) = true := by
    intro a b c h1 h2
    exact decide_eq_true (le_trans (of_decide_eq_true h2) (of_decide_eq_true h1))
  exact (pairwise_isortS _ htot htrans l).imp (fun h => of_decide_eq_true h)

theorem filter_insertS_score (a : ProductId × ℚ) (l : List (ProductId × ℚ)) (q : ℚ) :
    (insertS (fun x y => decide (y.2 ≤ x.2)) a l).filter (fun x => decide (x.2 = q)) =
      if a.2 = q then a :: l.filter (fun x => decide (x.2 = q))
      else l.filter (fun x => decide (x.2 = q)) := by
  induction l with
  | nil => by_cases haq : a.2 = q <;> simp [insertS, List.filter, haq]
  | cons b l ih =>
    simp only [insertS]
    split
    case isTrue hba => by_cases haq : a.2 = q <;> simp [List.filter_cons, haq]
    case isFalse hba =>
      have hlt : a.2 < b.2 := lt_of_not_le (fun h => hba (decide_eq_true h))
      by_cases hbq : b.2 = q
      · have haq : ¬ a.2 = q := by rw [← hbq]; exact ne_of_lt hlt
        simp [List.filter_cons, hbq, haq, ih]
      · by_cases haq : a.2 = q <;> simp [List.filter_cons, hbq, haq, ih]

theorem filter_sortByScoreDesc (l : List (ProductId × ℚ)) (q : ℚ) :
    (sortByScoreDesc l).filter (fun x => decide (x.2 = q)) =
      l.filter (fun x => decide (x.2 = q)) := by
  induction l with
  | nil => rfl
  | cons a l ih =>
    simp only [sortByScoreDesc, isortS] at ih ⊢
    rw [filter_insertS_score, ih]
    by_cases haq : a.2 = q <;> simp [List.filter_cons, haq]

theorem le_foldl_max (l : List ℚ) (b : ℚ) : b ≤ l.foldl max b := by
  induction l generalizing b with
  | nil => exact le_refl b
  | cons a l ih => exact le_trans (le_max_left b a) (ih (max b a))

theorem mem_le_foldl_max (l : List ℚ) (b x : ℚ) (h : x ∈ l) : x ≤ l.foldl max b := by
  induction l generalizing b with
  | nil => cases h
  | cons a l ih =>
    rcases List.mem_cons.mp h with rfl | h
    · exact le_trans (le_max_right b x) (le_foldl_max l (max b x))
    · exact ih (max b a) h

theorem le_maxOrDefault (l : List ℚ) (d x : ℚ) (h : x ∈ l) : x ≤ maxOrDefault l d := by
  cases l with
  | nil => cases h
  | cons a l =>
    rcases List.mem_cons.mp h with rfl | h
    · exact le_foldl_max l x
    · exact mem_le_foldl_max l a x h

theorem foldl_max_choice (l : List ℚ) (b : ℚ) : l.foldl max b = b ∨ l.foldl max b ∈ l := by
  induction l generalizing b with
  | nil => exact Or.inl rfl
  | cons a l ih =>
    rcases ih (max b a) with h | h
    · rcases max_choice b a with hb | ha
      · exact Or.inl (by rw [List.foldl_cons, h, hb])
      · refine Or.inr ?_
        rw [List.foldl_cons, h, ha]
        exact List.mem_cons_self a l
    · exact Or.inr (List.mem_cons_of_mem a h)

theorem maxOrDefault_pos (l : List ℚ) (d : ℚ) (hl : ∀ x ∈ l, 0 < x) (hne : l ≠ []) :
    0 < maxOrDefault l d := by
  cases l with
  | nil => exact absurd rfl hne
  | cons a l =>
    show 0 < l.foldl max a
    rcases foldl_max_choice l a with h | h
    · rw [h]; exact hl a (List.mem_cons_self a l)
    · exact hl _ (List.mem_cons_of_mem a h)

theorem dget_eq_none_iff {κ ν : Type} [DecidableEq κ] (d : Dict κ ν) (k : κ) :
    dget d k = none ↔ k ∉ dkeys d := by
  induction d with
  | nil => simp [dget, dkeys]
  | cons kv d ih =>
    by_cases h : kv.1 = k
    · simp [dget, dkeys, h]
    · simp only [dget, if_neg h, dkeys, List.map_cons, List.mem_cons]
      rw [ih]
      simp [dkeys, Ne.symm h]

theorem dget_mem {κ ν : Type} [DecidableEq κ] (d : Dict κ ν) (k : κ) (v : ν)
    (h : dget d k = some v) : (k, v) ∈ d := by
  induction d with
  | nil => simp [dget] at h
  | cons kv d ih =>
    by_cases hk : kv.1 = k
    · simp only [dget, if_pos hk] at h
      injection h with h
      refine List.mem_cons.mpr (Or.inl ?_)
      cases kv
      simp at hk h
      simp [hk, h]
    · simp only [dget, if_neg hk] at h
      exact List.mem_cons_of_mem kv (ih h)

theorem purchasedIds_eq_nil_of_not_mem (ph : Dict UserId (List Purchase)) (uid : UserId)
    (h : uid ∉ dkeys ph) : purchasedIds ph uid = [] := by
  simp [purchasedIds, (dget_eq_none_iff ph uid).mpr h]

theorem pyIndex_eq_none_iff {α : Type} [DecidableEq α] (l : List α) (x : α) :
    pyIndex l x = none ↔ x ∉ l := by
  induction l with
  | nil => simp [pyIndex]
  | cons y ys ih =>
    by_cases h : y = x
    · simp [pyIndex, h]
    · simp only [pyIndex, if_neg h, Option.map_eq_none', List.mem_cons]
      rw [ih]
      simp [Ne.symm h]

/-! Purchase-exclusion lemmas of the four purchase-filtering recommenders. -/

theorem popular_excludes_purchased (uid : UserId) (pops : List (ProductId × ℚ))
    (ph : Dict UserId (List Purchase)) (n : Nat) (pid : ProductId)
    (h : pid ∈ recommend_popular_trending_products uid pops ph n) :
    pid ∉ purchasedIds ph uid := by
  simp only [recommend_popular_trending_products] at h
  have h1 := List.take_subset _ _ h
  have h2 := List.of_mem_filter h1
  exact of_decide_eq_true h2

theorem mf_excludes_purchased (uid : UserId) (uf itf : List (List ℚ))
    (ui pi2 : Dict Nat Nat) (ph : Dict UserId (List Purchase)) (n : Nat) (pid : ProductId)
    (h : pid ∈ recommend_products_mf uid uf itf ui pi2 ph n) :
    pid ∉ purchasedIds ph uid := by
  simp only [recommend_products_mf] at h
  by_cases hm : uid ∈ dkeys ui
  · rw [if_pos hm] at h
    have h1 := List.take_subset _ _ h
    have h2 := List.of_mem_filter h1
    exact of_decide_eq_true h2
  · rw [if_neg hm] at h
    cases h

theorem cbf_excludes_purchased (uid : UserId) (profs : Dict UserId (List ℚ))
    (pfv : Dict ProductId (List ℚ)) (ph : Dict UserId (List Purchase)) (n : Nat)
    (l : List ProductId) (pid : ProductId)
    (h : recommend_products_cbf uid profs pfv ph n = Except.ok l) (hm : pid ∈ l) :
    pid ∉ purchasedIds ph uid := by
  simp only [recommend_products_cbf] at h
  cases hp : dget profs uid with
  | none => rw [hp] at h; cases h
  | some prof =>
    rw [hp] at h
    injection h with h
    rw [← h] at hm
    have h1 := List.take_subset _ _ hm
    have h2 := List.of_mem_filter h1
    exact of_decide_eq_true h2

theorem device_excludes_purchased (uid : UserId) (us : Dict UserId User)
    (prods : Dict ProductId Product) (ph : Dict UserId (List Purchase)) (n : Nat)
    (pid : ProductId) (h : pid ∈ recommend_products_device_based uid us prods ph n) :
    pid ∉ purchasedIds ph uid := by
  simp only [recommend_products_device_based] at h
  cases hu : dget us uid with
  | none => rw [hu] at h; cases h
  | some u =>
    rw [hu] at h
    have h1 := List.take_subset _ _ h
    by_cases hm : uid ∈ dkeys ph
    · rw [if_pos hm] at h1
      have h2 := List.of_mem_filter h1
      exact of_decide_eq_true h2
    · rw [purchasedIds_eq_nil_of_not_mem ph uid hm]
      simp

/-! C7: vectorization of a product outside the vocabularies fails. -/

theorem setTagBits_error_of_missing (all_tags tags : List String)
    (h : ∃ t ∈ tags, t ∉ all_tags) (v : List ℚ) :
    setTagBits all_tags tags v = Except.error PyErr.valueError := by
  induction tags generalizing v with
  | nil => rcases h with ⟨t, ht, _⟩; cases ht
  | cons tag rest ih =>
    simp only [setTagBits]
    cases hidx : pyIndex all_tags tag with
    | none => rfl
    | some i =>
      have htm : tag ∈ all_tags := by
        by_contra hc
        rw [(pyIndex_eq_none_iff all_tags tag).mpr hc] at hidx
        cases hidx
      rcases h with ⟨t, htl, hta⟩
      rcases List.mem_cons.mp htl with rfl | hrest
      · exact absurd htm hta
      · exact ih ⟨t, hrest, hta⟩ _

theorem setTagBits_ok_of_present (all_tags tags : List String)
    (h : ∀ t ∈ tags, t ∈ all_tags) (v : List ℚ) :
    ∃ w, setTagBits all_tags tags v = Except.ok w := by
  induction tags generalizing v with
  | nil => exact ⟨v, rfl⟩
  | cons tag rest ih =>
    simp only [setTagBits]
    cases hidx : pyIndex all_tags tag with
    | none =>
      exact absurd (h tag (List.mem_cons_self tag rest)) ((pyIndex_eq_none_iff _ _).mp hidx)
    | some i => exact ih (fun t ht => h t (List.mem_cons_of_mem tag ht)) (v.set i 1)

/-- C7: for every product whose category is absent from the category
vocabulary, or that has some tag absent from the tag vocabulary,
`create_product_feature_vector` fails with `ValueError` (so it never
returns a vector, in particular none with an all-zero category segment). -/
theorem claim_C7_invalid_entity (product : Product) (all_tags all_categories : List String)
    (h : product.category ∉ all_categories ∨ ∃ t ∈ product.tags, t ∉ all_tags) :
    create_product_feature_vector product all_tags all_categories =
      Except.error PyErr.valueError := by
  by_cases htags : ∃ t ∈ product.tags, t ∉ all_tags
  · simp only [create_product_feature_vector,
      setTagBits_error_of_missing all_tags product.tags htags]
  · have hall : ∀ t ∈ product.tags, t ∈ all_tags := by
      intro t ht
      by_contra hc
      exact htags ⟨t, ht, hc⟩
    have hcat : product.category ∉ all_categories := h.resolve_right htags
    rcases setTagBits_ok_of_present all_tags product.tags hall
      (List.replicate all_tags.length 0) with ⟨w, hw⟩
    simp only [create_product_feature_vector, hw,
      (pyIndex_eq_none_iff all_categories product.category).mpr hcat]

/-- C7 witness: the invalid product of the repository's own test
(`test_create_product_feature_vector_missing_category`). -/
theorem claim_C7_witness :
    ((⟨"Invalid Product", "NonExistentCategory", ["audio"], 0, []⟩ : Product).category ∉
        (["Electronics"] : List String)) ∧
    create_product_feature_vector ⟨"Invalid Product", "NonExistentCategory", ["audio"], 0, []⟩
        ["audio"] ["Electronics"] = Except.error PyErr.valueError :=
  ⟨by decide, claim_C7_invalid_entity _ _ _ (Or.inl (by decide))⟩

/-- C10: a user missing from `user_profiles` makes `recommend_products_cbf`
raise `KeyError`, which the hybrid engine propagates for any non-new user
on a cache miss; the latent-factor and device-based recommenders instead
return `[]` for a user id missing from their maps. -/
theorem claim_C10_cbf_keyerror (store : Store) (current_day : String) (cfg : Cfg)
    (user_id : UserId) (season_input : List String) (users : Dict UserId User)
    (products : Dict ProductId Product) (contextual_signals : Dict String CtxSignal)
    (browsing_history : Dict UserId (List Browse))
    (purchase_history : Dict UserId (List Purchase))
    (popular_products : List (ProductId × ℚ)) (user_factors item_factors : List (List ℚ))
    (user_index product_index : Dict Nat Nat) (user_profiles : Dict UserId (List ℚ))
    (product_feature_vectors : Dict ProductId (List ℚ)) (top_n : Nat)
    (hmiss : cacheMissAt store user_id season_input)
    (hnn : ¬ isNewUser browsing_history purchase_history user_id)
    (hprof : user_id ∉ dkeys user_profiles) :
    recommend_products_hybrid store current_day cfg user_id season_input users products
        contextual_signals browsing_history purchase_history popular_products user_factors
        item_factors user_index product_index user_profiles product_feature_vectors top_n =
      Except.error PyErr.keyError ∧
    (∀ (uf itf : List (List ℚ)) (ui pi2 : Dict Nat Nat) (n : Nat), user_id ∉ dkeys ui →
      recommend_products_mf user_id uf itf ui pi2 purchase_history n = []) ∧
    (∀ (us : Dict UserId User) (pr : Dict ProductId Product) (n : Nat), user_id ∉ dkeys us →
      recommend_products_device_based user_id us pr purchase_history n = []) := by
  refine ⟨?_, ?_, ?_⟩
  · have hcbf : recommend_products_cbf user_id user_profiles product_feature_vectors
        purchase_history top_n = Except.error PyErr.keyError := by
      simp only [recommend_products_cbf, (dget_eq_none_iff _ _).mpr hprof]
    rcases hmiss with hm | hm <;>
      simp only [recommend_products_hybrid, hybridUncached, hm, if_neg hnn, hcbf]
  · intro uf itf ui pi2 n hui
    simp only [recommend_products_mf, if_neg hui]
  · intro us pr n hus
    simp only [recommend_products_device_based, (dget_eq_none_iff _ _).mpr hus]

/-- C10 witness: user 7 appears in browsing history but not in
`user_profiles`; the request fails with `KeyError`. -/
theorem claim_C10_witness :
    cacheMissAt storeMiss 7 ["Summer"] ∧
    ¬ isNewUser [(7, [(103, "t")])] ([] : Dict UserId (List Purchase)) 7 ∧
    7 ∉ dkeys ([] : Dict UserId (List ℚ)) ∧
    recommend_products_hybrid storeMiss "Monday" defaultCfg 7 ["Summer"] [] productsA []
        [(7, [(103, "t")])] [] popularA [[0, 0]] [[0, 0]] [] [(103, 0)] [] [(103, [1, 1])] 5 =
      Except.error PyErr.keyError :=
  ⟨Or.inl rfl, by decide, by decide,
    (claim_C10_cbf_keyerror storeMiss "Monday" defaultCfg 7 ["Summer"] [] productsA []
      [(7, [(103, "t")])] [] popularA [[0, 0]] [[0, 0]] [] [(103, 0)] [] [(103, [1, 1])] 5
      (Or.inl rfl) (by decide) (by decide)).1⟩

/-- C2: contrary to the spec, a store failure during the cache read or the
cache write of `recommend_products_hybrid` is NOT treated as a cache miss:
it propagates to the caller as `redis.RedisError` (scenario A computes a
non-empty result, which the caller never receives). -/
theorem claim_C2_bug_eval :
    hybridA storeGetErr = Except.error PyErr.redisError ∧
    hybridA storeSetErr = Except.error PyErr.redisError := by
  constructor
  · rfl
  · norm_num [hybridA, recommend_products_hybrid, hybridUncached, get_cached_recommendations, storeSetErr,
      hybridCacheKey, recommend_popular_trending_products, purchasedIds, dget, dkeys,
      recommend_products_mf, recommend_products_cbf, recommend_products_time_based,
      recommend_products_device_based, kneighborsCosine, simGeQ, dotQ, dvalues, argsortAsc,
      isortS, insertS, fuseSignals, applySignal, signalStep, addScore, addSource,
      sortByScoreDesc, cache_recommendations, explanationTemplate,
      usersA, productsA, signalsA, purchaseA, popularA, defaultCfg,
      List.range_succ, List.enum]

/-- C3 counterexample: for new user 999 the hybrid engine returns the
popularity-tagged list with an empty write trace — the result is NOT
written to the cache before returning, though the store accepts writes. -/
theorem claim_C3_counterexample :
    hybridC storeMiss =
      Except.ok ([Sum.inr (101, explanationTemplate "popular"),
        Sum.inr (102, explanationTemplate "popular")], []) ∧
    storeMiss.set (hybridCacheKey 999 ["All Year", "Summer"]) = Except.ok () := by
  constructor
  · norm_num [hybridC, recommend_products_hybrid, hybridUncached, get_cached_recommendations, storeMiss,
      hybridCacheKey, recommend_popular_trending_products, purchasedIds, dget, dkeys,
      purchaseC, popularC]
  · rfl

/-- C3 amended: for a new user on a cache miss, the hybrid engine returns
exactly the popularity recommender's output tagged with the popularity
explanation, of length at most `top_n`, and does NOT write it to the cache
(the new-user path returns before the cache write). -/
theorem claim_C3_amended (store : Store) (current_day : String) (cfg : Cfg)
    (user_id : UserId) (season_input : List String) (users : Dict UserId User)
    (products : Dict ProductId Product) (contextual_signals : Dict String CtxSignal)
    (browsing_history : Dict UserId (List Browse))
    (purchase_history : Dict UserId (List Purchase))
    (popular_products : List (ProductId × ℚ)) (user_factors item_factors : List (List ℚ))
    (user_index product_index : Dict Nat Nat) (user_profiles : Dict UserId (List ℚ))
    (product_feature_vectors : Dict ProductId (List ℚ)) (top_n : Nat)
    (hmiss : cacheMissAt store user_id season_input)
    (hnew : isNewUser browsing_history purchase_history user_id) :
    recommend_products_hybrid store current_day cfg user_id season_input users products
        contextual_signals browsing_history purchase_history popular_products user_factors
        item_factors user_index product_index user_profiles product_feature_vectors top_n =
      Except.ok
        ((recommend_popular_trending_products user_id popular_products purchase_history
            top_n).map (fun pid => Sum.inr (pid, explanationTemplate "popular")), []) ∧
    (recommend_popular_trending_products user_id popular_products purchase_history
        top_n).length ≤ top_n := by
  constructor
  · rcases hmiss with hm | hm <;>
      simp only [recommend_products_hybrid, hybridUncached, hm, if_pos hnew]
  · simp only [recommend_popular_trending_products]
    exact List.length_take_le _ _

/-- C3 witness: new user 999 of scenario C. -/
theorem claim_C3_witness :
    cacheMissAt storeMiss 999 ["All Year", "Summer"] ∧
    isNewUser ([] : Dict UserId (List Browse)) purchaseC 999 ∧
    (recommend_products_hybrid storeMiss "Monday" defaultCfg 999 ["All Year", "Summer"]
        usersA productsA signalsA [] purchaseC popularC [[0, 0]] [[0, 0]] [(1, 0), (2, 0)]
        [(101, 0), (102, 1)] [(1, [1, 1]), (2, [1, 1])] [(103, [1, 1])] 5 =
      Except.ok
        ((recommend_popular_trending_products 999 popularC purchaseC 5).map
          (fun pid => Sum.inr (pid, explanationTemplate "popular")), []) ∧
    (recommend_popular_trending_products 999 popularC purchaseC 5).length ≤ 5) :=
  ⟨Or.inl rfl, by decide,
    claim_C3_amended storeMiss "Monday" defaultCfg 999 ["All Year", "Summer"] usersA
      productsA signalsA [] purchaseC popularC [[0, 0]] [[0, 0]] [(1, 0), (2, 0)]
      [(101, 0), (102, 1)] [(1, [1, 1]), (2, [1, 1])] [(103, [1, 1])] 5 (Or.inl rfl)
      (by decide)⟩

/-- C5: on the signal-exhaustion fallback path (scenario B) the hybrid
engine returns bare product ids, not (product id, explanation) pairs, and
of length at most `top_n`; every consumer in the repository unpacks pairs. -/
theorem claim_C5_bug_eval :
    hybridB = Except.ok ([Sum.inl 106], []) ∧
    (∀ (p : ProductId) (s : String), (Sum.inl 106 : RecEntry) ≠ Sum.inr (p, s)) ∧
    ([Sum.inl 106] : RecList).length ≤ 5 := by
  refine ⟨?_, ?_, by simp⟩
  · norm_num [hybridB, recommend_products_hybrid, hybridUncached, get_cached_recommendations, storeMiss,
      hybridCacheKey, recommend_popular_trending_products, purchasedIds, dget, dkeys,
      recommend_products_mf, recommend_products_cbf, recommend_products_time_based,
      recommend_products_device_based, kneighborsCosine, simGeQ, dotQ, dvalues, argsortAsc,
      isortS, insertS, productsB, purchaseB, popularB, profileB, vectorsB, defaultCfg,
      List.range_succ, List.enum]
  · intro p s h
    cases h

/-- C4 counterexample: in scenario B the four personalized/contextual
recommenders are empty, the popularity recommender is NOT empty
(`[106]`), and the hybrid engine still takes the fallback path, returning
the bare ids uncached — refuting "if and only if every one of the five
signal recommenders returns an empty result". -/
theorem claim_C4_counterexample :
    hybridB = Except.ok ([Sum.inl 106], []) ∧
    recommend_popular_trending_products 7 popularB purchaseB 5 = [106] ∧
    ([106] : List ProductId) ≠ [] := by
  refine ⟨?_, ?_, by simp⟩
  · norm_num [hybridB, recommend_products_hybrid, hybridUncached, get_cached_recommendations, storeMiss,
      hybridCacheKey, recommend_popular_trending_products, purchasedIds, dget, dkeys,
      recommend_products_mf, recommend_products_cbf, recommend_products_time_based,
      recommend_products_device_based, kneighborsCosine, simGeQ, dotQ, dvalues, argsortAsc,
      isortS, insertS, productsB, purchaseB, popularB, profileB, vectorsB, defaultCfg,
      List.range_succ, List.enum]
  · norm_num [recommend_popular_trending_products, purchasedIds, dget, dkeys, purchaseB,
      popularB]

/-- C6 counterexample: the code's cache key joins the season labels in the
given order, not sorted — two orders of the same labels give different
keys, though the spec's sorted key would coincide. -/
theorem claim_C6_counterexample :
    hybridCacheKey 1 ["Summer", "All Year"] ≠ specSortedCacheKey 1 ["Summer", "All Year"] ∧
    hybridCacheKey 1 ["Summer", "All Year"] ≠ hybridCacheKey 1 ["All Year", "Summer"] ∧
    specSortedCacheKey 1 ["Summer", "All Year"] = specSortedCacheKey 1 ["All Year", "Summer"] := by
  refine ⟨?_, ?_, ?_⟩ <;> decide

/-- C6 amended: both the cache read and the cache write use the key
`recommendations:` ++ user id ++ `:` ++ the comma-join of the season labels
in input (unsorted) order: the read consults the store only at that key,
and a successful write writes exactly that key. -/
theorem claim_C6_amended (user_id : UserId) (season_input : List String)
    (store1 store2 : Store) (recs : RecList) (w : List (String × RecList))
    (hagree : store1.get (hybridCacheKey user_id season_input) =
      store2.get (hybridCacheKey user_id season_input))
    (hw : cache_recommendations store1 user_id season_input recs = Except.ok w) :
    get_cached_recommendations store1 user_id season_input =
      get_cached_recommendations store2 user_id season_input ∧
    w.map Prod.fst = [hybridCacheKey user_id season_input] ∧
    hybridCacheKey user_id season_input =
      "recommendations:" ++ toString user_id ++ ":" ++
        String.intercalate "," season_input := by
  refine ⟨?_, ?_, rfl⟩
  · simp only [get_cached_recommendations, hagree]
  · simp only [cache_recommendations] at hw
    cases hs : store1.set (hybridCacheKey user_id season_input) with
    | error e => rw [hs] at hw; cases hw
    | ok u =>
      rw [hs] at hw
      injection hw with hw
      rw [← hw]
      rfl

/-- C6 witness: a concrete successful write at user 2, seasons B, A. -/
theorem claim_C6_witness :
    (storeMiss.get (hybridCacheKey 2 ["B", "A"]) = storeMiss.get (hybridCacheKey 2 ["B", "A"])) ∧
    cache_recommendations storeMiss 2 ["B", "A"] [] =
      Except.ok [(hybridCacheKey 2 ["B", "A"], [])] ∧
    (get_cached_recommendations storeMiss 2 ["B", "A"] =
        get_cached_recommendations storeMiss 2 ["B", "A"] ∧
      ([(hybridCacheKey 2 ["B", "A"], ([] : RecList))].map Prod.fst) =
        [hybridCacheKey 2 ["B", "A"]] ∧
      hybridCacheKey 2 ["B", "A"] =
        "recommendations:" ++ toString 2 ++ ":" ++ String.intercalate "," ["B", "A"]) :=
  ⟨rfl, rfl,
    claim_C6_amended 2 ["B", "A"] storeMiss storeMiss [] [(hybridCacheKey 2 ["B", "A"], [])]
      rfl rfl⟩

/-! Lemmas about the fusion fold: the imperative `+=` accumulation equals
the declarative per-signal contribution sum. -/

theorem dget_mapAdd (d : Dict ProductId ℚ) (pid q : ProductId) (delta : ℚ) :
    dget (d.map (fun kv => if kv.1 = pid then (kv.1, kv.2 + delta) else kv)) q =
      (dget d q).map (fun v => if q = pid then v + delta else v) := by
  induction d with
  | nil => rfl
  | cons kv d ih =>
    by_cases hk : kv.1 = q
    · by_cases hp : kv.1 = pid
      · have hqp : q = pid := hk.symm.trans hp
        simp [dget, hk, hp, hqp]
      · have hqp : ¬ q = pid := fun h => hp (hk.trans h)
        simp [dget, hk, hp, hqp]
    · by_cases hp : kv.1 = pid
      · have hpq : ¬ pid = q := fun h => hk (hp.trans h)
        simp [dget, hk, hp, hpq, ih]
      · simp [dget, hk, hp, ih]

theorem scoreOf_mapAdd (d : Dict ProductId ℚ) (pid q : ProductId) (delta : ℚ) :
    scoreOf (d.map (fun kv => if kv.1 = pid then (kv.1, kv.2 + delta) else kv)) q =
      scoreOf d q + (if q = pid ∧ q ∈ dkeys d then delta else 0) := by
  simp only [scoreOf, dget_mapAdd]
  cases hd : dget d q with
  | none =>
    have hq : q ∉ dkeys d := (dget_eq_none_iff d q).mp hd
    simp [hq]
  | some v =>
    have hq : q ∈ dkeys d := by
      by_contra hc
      rw [(dget_eq_none_iff d q).mpr hc] at hd
      cases hd
    by_cases hqp : q = pid
    · subst hqp
      simp [hq]
    · simp [hqp]

theorem dget_append {κ ν : Type} [DecidableEq κ] (d1 d2 : Dict κ ν) (q : κ) :
    dget (d1 ++ d2) q = if q ∈ dkeys d1 then dget d1 q else dget d2 q := by
  induction d1 with
  | nil => simp [dkeys]
  | cons kv d1 ih =>
    by_cases hk : kv.1 = q
    · have hm : q ∈ dkeys (kv :: d1) := by simp [dkeys, hk.symm]
      simp [dget, hk, hm]
    · by_cases hm : q ∈ dkeys d1
      · have hm2 : q ∈ dkeys (kv :: d1) := by simp [dkeys] at hm ⊢; exact Or.inr hm
        simp [dget, hk, ih, hm, hm2]
      · have hm2 : q ∉ dkeys (kv :: d1) := by
          simp [dkeys, Ne.symm hk] at hm ⊢
          exact hm
        simp [dget, hk, ih, hm, hm2]

theorem scoreOf_append (d1 d2 : Dict ProductId ℚ) (q : ProductId) :
    scoreOf (d1 ++ d2) q = if q ∈ dkeys d1 then scoreOf d1 q else scoreOf d2 q := by
  simp only [scoreOf, dget_append]
  by_cases hm : q ∈ dkeys d1 <;> simp [hm]

theorem scoreOf_addScore (d : Dict ProductId ℚ) (pid q : ProductId) (delta : ℚ) :
    scoreOf (addScore d pid delta) q = scoreOf d q + (if q = pid then delta else 0) := by
  rw [addScore]
  split
  case isTrue hm =>
    rw [scoreOf_mapAdd]
    by_cases hq : q = pid
    · subst hq
      simp [hm]
    · simp [hq]
  case isFalse hm =>
    rw [scoreOf_append]
    by_cases hq : q = pid
    · subst hq
      rw [if_neg hm]
      have h0 : scoreOf d q = 0 := by
        simp [scoreOf, (dget_eq_none_iff d q).mpr hm]
      rw [h0]
      simp [scoreOf, dget]
    · by_cases hq2 : q ∈ dkeys d
      · rw [if_pos hq2]
        simp [hq]
      · rw [if_neg hq2]
        have h0 : scoreOf d q = 0 := by
          simp [scoreOf, (dget_eq_none_iff d q).mpr hq2]
        rw [h0]
        have hpq : ¬ pid = q := fun h => hq h.symm
        simp [scoreOf, dget, hpq, hq]

theorem dkeys_mapAdd (d : Dict ProductId ℚ) (pid : ProductId) (delta : ℚ) :
    dkeys (d.map (fun kv => if kv.1 = pid then (kv.1, kv.2 + delta) else kv)) = dkeys d := by
  induction d with
  | nil => rfl
  | cons kv d ih =>
    simp only [List.map_cons, dkeys] at ih ⊢
    rw [ih]
    by_cases hp : kv.1 = pid <;> simp [hp]

theorem mem_dkeys_addScore (d : Dict ProductId ℚ) (pid q : ProductId) (delta : ℚ) :
    q ∈ dkeys (addScore d pid delta) ↔ q ∈ dkeys d ∨ q = pid := by
  rw [addScore]
  split
  case isTrue hm =>
    rw [dkeys_mapAdd]
    constructor
    · exact Or.inl
    · rintro (h | rfl)
      · exact h
      · exact hm
  case isFalse hm =>
    simp [dkeys]

theorem enumFrom_cons_eq {α : Type} (n : Nat) (a : α) (l : List α) :
    List.enumFrom n (a :: l) = (n, a) :: List.enumFrom (n + 1) l := rfl

theorem scoreOf_foldl_signalStep (L : Nat) (name : String) (w : ℚ) (lst : List ProductId)
    (hnd : lst.Nodup) (k : Nat) (st : FuseState) (pid : ProductId) :
    scoreOf ((List.enumFrom k lst).foldl (signalStep L name w) st).1 pid =
      scoreOf st.1 pid +
        (if pid ∈ lst then
          w * (1 - ((k : ℚ) + (((pyIndex lst pid).getD 0 : Nat) : ℚ)) / (L : ℚ)) else 0) := by
  induction lst generalizing k st with
  | nil => simp
  | cons x xs ih =>
    rw [List.nodup_cons] at hnd
    rw [enumFrom_cons_eq, List.foldl_cons, ih hnd.2 (k + 1) (signalStep L name w st (k, x))]
    have hstep : scoreOf (signalStep L name w st (k, x)).1 pid =
        scoreOf st.1 pid + (if pid = x then w * (1 - (k : ℚ) / (L : ℚ)) else 0) := by
      simp only [signalStep]
      exact scoreOf_addScore _ _ _ _
    rw [hstep]
    by_cases hpx : pid = x
    · subst hpx
      rw [if_pos (List.mem_cons_self pid xs), if_pos rfl, if_neg hnd.1]
      have hidx : pyIndex (pid :: xs) pid = some 0 := by simp [pyIndex]
      rw [hidx]
      simp only [Option.getD_some]
      push_cast
      ring
    · rw [if_neg hpx]
      have hxp : ¬ x = pid := fun h => hpx h.symm
      have hx : pyIndex (x :: xs) pid = (pyIndex xs pid).map (· + 1) := by
        simp [pyIndex, hxp]
      by_cases hmem : pid ∈ xs
      · rw [if_pos hmem, if_pos (List.mem_cons_of_mem x hmem), hx]
        cases hi : pyIndex xs pid with
        | none => exact absurd hmem ((pyIndex_eq_none_iff xs pid).mp hi)
        | some i =>
          simp only [hi, Option.map_some', Option.getD_some]
          push_cast
          ring
      · rw [if_neg hmem, if_neg (by simp [hpx, hmem] : ¬ pid ∈ x :: xs)]
        ring

theorem scoreOf_applySignal (name : String) (w : ℚ) (lst : List ProductId) (st : FuseState)
    (pid : ProductId) (hnd : lst.Nodup) :
    scoreOf (applySignal name w lst st).1 pid =
      scoreOf st.1 pid + specContribution w lst pid := by
  have h := scoreOf_foldl_signalStep lst.length name w lst hnd 0 st pid
  rw [applySignal, show lst.enum = List.enumFrom 0 lst from rfl, h, specContribution]
  by_cases hm : pid ∈ lst
  · rw [if_pos hm, if_pos hm]
    norm_num
  · rw [if_neg hm, if_neg hm]

theorem mem_keys_foldl_signalStep (L : Nat) (name : String) (w : ℚ)
    (l : List (Nat × ProductId)) (st : FuseState) (pid : ProductId)
    (h : pid ∈ dkeys (l.foldl (signalStep L name w) st).1) :
    pid ∈ dkeys st.1 ∨ pid ∈ l.map Prod.snd := by
  induction l generalizing st with
  | nil => exact Or.inl h
  | cons ip l ih =>
    rw [List.foldl_cons] at h
    rcases ih _ h with h1 | h1
    · rcases (mem_dkeys_addScore _ _ _ _).mp h1 with h2 | h2
      · exact Or.inl h2
      · refine Or.inr ?_
        simp only [List.map_cons, List.mem_cons]
        exact Or.inl h2
    · refine Or.inr ?_
      simp only [List.map_cons, List.mem_cons]
      exact Or.inr h1

theorem mem_keys_applySignal (name : String) (w : ℚ) (lst : List ProductId) (st : FuseState)
    (pid : ProductId) (h : pid ∈ dkeys (applySignal name w lst st).1) :
    pid ∈ dkeys st.1 ∨ pid ∈ lst := by
  rcases mem_keys_foldl_signalStep _ _ _ _ _ _ h with h1 | h1
  · exact Or.inl h1
  · rw [List.enum_map_snd] at h1
    exact Or.inr h1

theorem mem_keys_fuseSignals (mfW cbfW popW timeW devW : ℚ)
    (mfL cbfL popL timeL devL : List ProductId) (pid : ProductId)
    (h : pid ∈ dkeys (fuseSignals mfW cbfW popW timeW devW mfL cbfL popL timeL devL).1) :
    pid ∈ mfL ∨ pid ∈ cbfL ∨ pid ∈ popL ∨ pid ∈ timeL ∨ pid ∈ devL := by
  rw [fuseSignals] at h
  rcases mem_keys_applySignal _ _ _ _ _ h with h | hdev
  · rcases mem_keys_applySignal _ _ _ _ _ h with h | htime
    · rcases mem_keys_applySignal _ _ _ _ _ h with h | hpop
      · rcases mem_keys_applySignal _ _ _ _ _ h with h | hcbf
        · rcases mem_keys_applySignal _ _ _ _ _ h with h | hmf
          · cases h
          · exact Or.inl hmf
        · exact Or.inr (Or.inl hcbf)
      · exact Or.inr (Or.inr (Or.inl hpop))
    · exact Or.inr (Or.inr (Or.inr (Or.inl htime)))
  · exact Or.inr (Or.inr (Or.inr (Or.inr hdev)))

theorem scoreOf_fuseSignals (mfW cbfW popW timeW devW : ℚ)
    (mfL cbfL popL timeL devL : List ProductId) (pid : ProductId)
    (h1 : mfL.Nodup) (h2 : cbfL.Nodup) (h3 : popL.Nodup) (h4 : timeL.Nodup)
    (h5 : devL.Nodup) :
    scoreOf (fuseSignals mfW cbfW popW timeW devW mfL cbfL popL timeL devL).1 pid =
      specAggregate mfW cbfW popW timeW devW mfL cbfL popL timeL devL pid := by
  rw [fuseSignals, scoreOf_applySignal _ _ _ _ _ h5, scoreOf_applySignal _ _ _ _ _ h4,
    scoreOf_applySignal _ _ _ _ _ h3, scoreOf_applySignal _ _ _ _ _ h2,
    scoreOf_applySignal _ _ _ _ _ h1, specAggregate]
  have h0 : scoreOf (([], []) : FuseState).1 pid = 0 := rfl
  rw [h0]
  ring

/-- Shared path lemma: on a cache miss, for a returning user whose
content-based call succeeds, when not all four of mf/cbf/time/device are
empty and the cache write succeeds, the hybrid engine returns the fused
list and writes it under the cache key. -/
theorem hybrid_fusion_path (store : Store) (current_day : String) (cfg : Cfg)
    (user_id : UserId) (season_input : List String) (users : Dict UserId User)
    (products : Dict ProductId Product) (contextual_signals : Dict String CtxSignal)
    (browsing_history : Dict UserId (List Browse))
    (purchase_history : Dict UserId (List Purchase))
    (popular_products : List (ProductId × ℚ)) (user_factors item_factors : List (List ℚ))
    (user_index product_index : Dict Nat Nat) (user_profiles : Dict UserId (List ℚ))
    (product_feature_vectors : Dict ProductId (List ℚ)) (top_n : Nat)
    (cbfL : List ProductId)
    (hmiss : cacheMissAt store user_id season_input)
    (hnn : ¬ isNewUser browsing_history purchase_history user_id)
    (hcbf : recommend_products_cbf user_id user_profiles product_feature_vectors
      purchase_history top_n = Except.ok cbfL)
    (hne : ¬(recommend_products_mf user_id user_factors item_factors user_index
        product_index purchase_history top_n = [] ∧ cbfL = [] ∧
      recommend_products_time_based current_day season_input products
        contextual_signals = [] ∧
      recommend_products_device_based user_id users products purchase_history top_n = []))
    (hset : store.set (hybridCacheKey user_id season_input) = Except.ok ()) :
    recommend_products_hybrid store current_day cfg user_id season_input users products
        contextual_signals browsing_history purchase_history popular_products user_factors
        item_factors user_index product_index user_profiles product_feature_vectors top_n =
      Except.ok
        (fusionTop cfg top_n
          (recommend_products_mf user_id user_factors item_factors user_index product_index
            purchase_history top_n)
          cbfL
          (recommend_popular_trending_products user_id popular_products purchase_history
            top_n)
          (recommend_products_time_based current_day season_input products
            contextual_signals)
          (recommend_products_device_based user_id users products purchase_history top_n),
        [(hybridCacheKey user_id season_input,
          fusionTop cfg top_n
            (recommend_products_mf user_id user_factors item_factors user_index
              product_index purchase_history top_n)
            cbfL
            (recommend_popular_trending_products user_id popular_products purchase_history
              top_n)
            (recommend_products_time_based current_day season_input products
              contextual_signals)
            (recommend_products_device_based user_id users products purchase_history
              top_n))]) := by
  rcases hmiss with hm | hm <;>
    simp only [recommend_products_hybrid, hybridUncached, hm, if_neg hnn, hcbf, if_neg hne,
      cache_recommendations, hset, fusionTop, fusionScores, fuseSignals]

/-- C4 amended: on a cache miss, for a returning user, the hybrid engine
takes the uncached bare-id popularity fallback if and only if each of the
FOUR recommenders mf, cbf, time-based and device-based is empty — the
popularity recommender's output is not part of the emptiness check; when
some of the four is non-empty (and the write succeeds) the fused, cached
pair list is returned instead. -/
theorem claim_C4_amended (store : Store) (current_day : String) (cfg : Cfg)
    (user_id : UserId) (season_input : List String) (users : Dict UserId User)
    (products : Dict ProductId Product) (contextual_signals : Dict String CtxSignal)
    (browsing_history : Dict UserId (List Browse))
    (purchase_history : Dict UserId (List Purchase))
    (popular_products : List (ProductId × ℚ)) (user_factors item_factors : List (List ℚ))
    (user_index product_index : Dict Nat Nat) (user_profiles : Dict UserId (List ℚ))
    (product_feature_vectors : Dict ProductId (List ℚ)) (top_n : Nat)
    (cbfL : List ProductId)
    (hmiss : cacheMissAt store user_id season_input)
    (hnn : ¬ isNewUser browsing_history purchase_history user_id)
    (hcbf : recommend_products_cbf user_id user_profiles product_feature_vectors
      purchase_history top_n = Except.ok cbfL) :
    ((recommend_products_mf user_id user_factors item_factors user_index product_index
        purchase_history top_n = [] ∧ cbfL = [] ∧
      recommend_products_time_based current_day season_input products
        contextual_signals = [] ∧
      recommend_products_device_based user_id users products purchase_history top_n = []) →
      recommend_products_hybrid store current_day cfg user_id season_input users products
          contextual_signals browsing_history purchase_history popular_products
          user_factors item_factors user_index product_index user_profiles
          product_feature_vectors top_n =
        Except.ok
          (((recommend_popular_trending_products user_id popular_products purchase_history
              top_n).take top_n).map Sum.inl, [])) ∧
    (¬(recommend_products_mf user_id user_factors item_factors user_index product_index
        purchase_history top_n = [] ∧ cbfL = [] ∧
      recommend_products_time_based current_day season_input products
        contextual_signals = [] ∧
      recommend_products_device_based user_id users products purchase_history top_n = []) →
      store.set (hybridCacheKey user_id season_input) = Except.ok () →
      recommend_products_hybrid store current_day cfg user_id season_input users products
          contextual_signals browsing_history purchase_history popular_products
          user_factors item_factors user_index product_index user_profiles
          product_feature_vectors top_n =
        Except.ok
          (fusionTop cfg top_n
            (recommend_products_mf user_id user_factors item_factors user_index
              product_index purchase_history top_n)
            cbfL
            (recommend_popular_trending_products user_id popular_products purchase_history
              top_n)
            (recommend_products_time_based current_day season_input products
              contextual_signals)
            (recommend_products_device_based user_id users products purchase_history
              top_n),
          [(hybridCacheKey user_id season_input,
            fusionTop cfg top_n
              (recommend_products_mf user_id user_factors item_factors user_index
                product_index purchase_history top_n)
              cbfL
              (recommend_popular_trending_products user_id popular_products
                purchase_history top_n)
              (recommend_products_time_based current_day season_input products
                contextual_signals)
              (recommend_products_device_based user_id users products purchase_history
                top_n))])) := by
  constructor
  · intro h4
    rcases hmiss with hm | hm <;>
      simp only [recommend_products_hybrid, hybridUncached, hm, if_neg hnn, hcbf,
        if_pos h4]
  · intro h4 hset
    exact hybrid_fusion_path store current_day cfg user_id season_input users products
      contextual_signals browsing_history purchase_history popular_products user_factors
      item_factors user_index product_index user_profiles product_feature_vectors top_n
      cbfL hmiss hnn hcbf h4 hset

/-- C4 witness: in scenario B the four recommenders are empty and the
fallback branch of the amended claim applies. -/
theorem claim_C4_witness :
    hybridB = Except.ok
      (((recommend_popular_trending_products 7 popularB purchaseB 5).take 5).map Sum.inl,
        []) :=
  (claim_C4_amended storeMiss "Monday" defaultCfg 7 ["Summer"]
      [(8, ⟨"Bob", "LA", "desktop"⟩)] productsB [] [] purchaseB popularB [[0, 0]] [[0, 0]]
      [(8, 0)] [(101, 0)] [(7, profileB)] vectorsB 5 [] (Or.inl rfl) (by decide)
      (by norm_num [recommend_products_cbf, kneighborsCosine, simGeQ, dotQ, dvalues, dkeys,
        dget, purchasedIds, isortS, insertS, vectorsB, purchaseB, profileB,
        List.range_succ])).1
    (by refine ⟨?_, rfl, rfl, ?_⟩ <;>
      norm_num [recommend_products_mf, recommend_products_device_based, dget, dkeys,
        purchasedIds, argsortAsc, isortS, insertS, dotQ, purchaseB, productsB,
        List.range_succ])

/-- C8: in the fusion step, the aggregate score the fold computes for every
product equals the spec's additive sum of per-signal contributions
`weight * (1 - i / L)`, and the final list is the aggregate-score
descending sort truncated to `top_n` with joined explanations, as returned
(and cached) by the hybrid engine. -/
theorem claim_C8_fusion (store : Store) (current_day : String) (cfg : Cfg)
    (user_id : UserId) (season_input : List String) (users : Dict UserId User)
    (products : Dict ProductId Product) (contextual_signals : Dict String CtxSignal)
    (browsing_history : Dict UserId (List Browse))
    (purchase_history : Dict UserId (List Purchase))
    (popular_products : List (ProductId × ℚ)) (user_factors item_factors : List (List ℚ))
    (user_index product_index : Dict Nat Nat) (user_profiles : Dict UserId (List ℚ))
    (product_feature_vectors : Dict ProductId (List ℚ)) (top_n : Nat)
    (mfL cbfL popL timeL devL : List ProductId)
    (hmiss : cacheMissAt store user_id season_input)
    (hnn : ¬ isNewUser browsing_history purchase_history user_id)
    (hmf : mfL = recommend_products_mf user_id user_factors item_factors user_index
      product_index purchase_history top_n)
    (hcbf : recommend_products_cbf user_id user_profiles product_feature_vectors
      purchase_history top_n = Except.ok cbfL)
    (hpop : popL = recommend_popular_trending_products user_id popular_products
      purchase_history top_n)
    (htime : timeL = recommend_products_time_based current_day season_input products
      contextual_signals)
    (hdev : devL = recommend_products_device_based user_id users products purchase_history
      top_n)
    (hne : ¬(mfL = [] ∧ cbfL = [] ∧ timeL = [] ∧ devL = []))
    (hset : store.set (hybridCacheKey user_id season_input) = Except.ok ())
    (h1 : mfL.Nodup) (h2 : cbfL.Nodup) (h3 : popL.Nodup) (h4 : timeL.Nodup)
    (h5 : devL.Nodup) :
    recommend_products_hybrid store current_day cfg user_id season_input users products
        contextual_signals browsing_history purchase_history popular_products user_factors
        item_factors user_index product_index user_profiles product_feature_vectors top_n =
      Except.ok
        (fusionTop cfg top_n mfL cbfL popL timeL devL,
        [(hybridCacheKey user_id season_input,
          fusionTop cfg top_n mfL cbfL popL timeL devL)]) ∧
    (∀ pid, scoreOf (fusionScores cfg mfL cbfL popL timeL devL).1 pid =
      specAggregate cfg.mf_weight cfg.cbf_weight cfg.popular_weight cfg.time_base_weight
        cfg.device_weight mfL cbfL popL timeL devL pid) ∧
    (sortByScoreDesc (fusionScores cfg mfL cbfL popL timeL devL).1).Pairwise
      (fun a b => b.2 ≤ a.2) := by
  subst hmf hpop htime hdev
  refine ⟨hybrid_fusion_path store current_day cfg user_id season_input users products
      contextual_signals browsing_history purchase_history popular_products user_factors
      item_factors user_index product_index user_profiles product_feature_vectors top_n
      cbfL hmiss hnn hcbf hne hset, ?_, sortByScoreDesc_pairwise _⟩
  intro pid
  rw [fusionScores]
  exact scoreOf_fuseSignals _ _ _ _ _ _ _ _ _ _ pid h1 h2 h3 h4 h5

/-- C8 witness: scenario A reaches the fusion step with the time-based list
`[103]` and the other four lists empty. -/
theorem claim_C8_witness :
    hybridA storeMiss = Except.ok
      (fusionTop defaultCfg 1 [] [] [] [103] [],
       [(hybridCacheKey 3 ["Summer"], fusionTop defaultCfg 1 [] [] [] [103] [])]) ∧
    (∀ pid, scoreOf (fusionScores defaultCfg [] [] [] [103] []).1 pid =
      specAggregate defaultCfg.mf_weight defaultCfg.cbf_weight defaultCfg.popular_weight
        defaultCfg.time_base_weight defaultCfg.device_weight [] [] [] [103] [] pid) ∧
    (sortByScoreDesc (fusionScores defaultCfg [] [] [] [103] []).1).Pairwise
      (fun a b => b.2 ≤ a.2) :=
  claim_C8_fusion storeMiss "Monday" defaultCfg 3 ["Summer"] usersA productsA signalsA
    [] purchaseA popularA [[0, 0]] [[0, 0]] [(3, 0)] [(103, 0)] [(3, [1, 1])]
    [(103, [1, 1])] 1 [] [] [] [103] [] (Or.inl rfl) (by decide)
    (by norm_num [recommend_products_mf, dget, dkeys, purchasedIds, argsortAsc, isortS,
      insertS, dotQ, purchaseA, List.range_succ])
    (by norm_num [recommend_products_cbf, kneighborsCosine, simGeQ, dotQ, dvalues, dkeys,
      dget, purchasedIds, isortS, insertS, purchaseA, List.range_succ])
    (by norm_num [recommend_popular_trending_products, purchasedIds, dget, dkeys,
      popularA, purchaseA])
    (by decide)
    (by norm_num [recommend_products_device_based, dget, dkeys, purchasedIds, usersA,
      productsA, purchaseA])
    (by decide) rfl (by decide) (by decide) (by decide) (by decide) (by decide)

theorem entryIds_map_pair (l : List ProductId) (tmpl : String) :
    entryIds (l.map (fun pid => Sum.inr (pid, tmpl))) = l := by
  induction l with
  | nil => rfl
  | cons x l ih => simp only [List.map_cons, entryIds] at ih ⊢; rw [ih]

theorem entryIds_map_inl (l : List ProductId) : entryIds (l.map Sum.inl) = l := by
  induction l with
  | nil => rfl
  | cons x l ih => simp only [List.map_cons, entryIds] at ih ⊢; rw [ih]

theorem entryIds_map_mk (l : List (ProductId × ℚ)) (f : ProductId × ℚ → String) :
    entryIds (l.map (fun sc => Sum.inr (sc.1, f sc))) = l.map Prod.fst := by
  induction l with
  | nil => rfl
  | cons x l ih => simp only [List.map_cons, entryIds] at ih ⊢; rw [ih]

/-- C1 amended: on a cache miss, every product id of the hybrid result that
lies in the user's purchase history was contributed by the time-based
recommender (the only one of the five that does not filter out purchased
products); in particular, when the time-based output has no purchased
product, the result has none. -/
theorem claim_C1_amended (store : Store) (current_day : String) (cfg : Cfg)
    (user_id : UserId) (season_input : List String) (users : Dict UserId User)
    (products : Dict ProductId Product) (contextual_signals : Dict String CtxSignal)
    (browsing_history : Dict UserId (List Browse))
    (purchase_history : Dict UserId (List Purchase))
    (popular_products : List (ProductId × ℚ)) (user_factors item_factors : List (List ℚ))
    (user_index product_index : Dict Nat Nat) (user_profiles : Dict UserId (List ℚ))
    (product_feature_vectors : Dict ProductId (List ℚ)) (top_n : Nat)
    (res : RecList × List (String × RecList))
    (hmiss : cacheMissAt store user_id season_input)
    (hres : recommend_products_hybrid store current_day cfg user_id season_input users
        products contextual_signals browsing_history purchase_history popular_products
        user_factors item_factors user_index product_index user_profiles
        product_feature_vectors top_n = Except.ok res) :
    ∀ pid, pid ∈ entryIds res.1 → pid ∈ purchasedIds purchase_history user_id →
      pid ∈ recommend_products_time_based current_day season_input products
        contextual_signals := by
  intro pid hpid hpur
  have he : hybridUncached store current_day cfg user_id season_input users products
      contextual_signals browsing_history purchase_history popular_products user_factors
      item_factors user_index product_index user_profiles product_feature_vectors top_n =
      Except.ok res := by
    rcases hmiss with hm | hm <;>
      (simp only [recommend_products_hybrid, hm] at hres; exact hres)
  by_cases hnew : isNewUser browsing_history purchase_history user_id
  · simp only [hybridUncached, if_pos hnew] at he
    injection he with he
    rw [← he] at hpid
    simp only [entryIds_map_pair] at hpid
    exact absurd hpur (popular_excludes_purchased _ _ _ _ _ hpid)
  · simp only [hybridUncached, if_neg hnew] at he
    cases hcbf : recommend_products_cbf user_id user_profiles product_feature_vectors
        purchase_history top_n with
    | error e => rw [hcbf] at he; simp at he
    | ok cbfL =>
      simp only [hcbf] at he
      by_cases h4 : (recommend_products_mf user_id user_factors item_factors user_index
          product_index purchase_history top_n = [] ∧ cbfL = [] ∧
        recommend_products_time_based current_day season_input products
          contextual_signals = [] ∧
        recommend_products_device_based user_id users products purchase_history
          top_n = [])
      · rw [if_pos h4] at he
        injection he with he
        rw [← he] at hpid
        simp only [entryIds_map_inl] at hpid
        have h5 := List.take_subset _ _ hpid
        exact absurd hpur (popular_excludes_purchased _ _ _ _ _ h5)
      · rw [if_neg h4] at he
        simp only [cache_recommendations] at he
        cases hset : store.set (hybridCacheKey user_id season_input) with
        | error e => rw [hset] at he; simp at he
        | ok u =>
          simp only [hset] at he
          injection he with he
          rw [← he] at hpid
          simp only [entryIds_map_mk] at hpid
          rcases List.mem_map.mp hpid with ⟨sc, hsc, rfl⟩
          have hsc2 := List.take_subset _ _ hsc
          have hsc3 := (sortByScoreDesc_perm _).mem_iff.mp hsc2
          have hkey : sc.1 ∈ dkeys (fuseSignals cfg.mf_weight cfg.cbf_weight
              cfg.popular_weight cfg.time_base_weight cfg.device_weight
              (recommend_products_mf user_id user_factors item_factors user_index
                product_index purchase_history top_n)
              cbfL
              (recommend_popular_trending_products user_id popular_products
                purchase_history top_n)
              (recommend_products_time_based current_day season_input products
                contextual_signals)
              (recommend_products_device_based user_id users products purchase_history
                top_n)).1 := List.mem_map.mpr ⟨sc, hsc3, rfl⟩
          rcases mem_keys_fuseSignals _ _ _ _ _ _ _ _ _ _ _ hkey with
            hmf | hcbf2 | hpop | htime | hdev
          · exact absurd hpur (mf_excludes_purchased _ _ _ _ _ _ _ _ hmf)
          · exact absurd hpur (cbf_excludes_purchased _ _ _ _ _ _ _ hcbf hcbf2)
          · exact absurd hpur (popular_excludes_purchased _ _ _ _ _ hpop)
          · exact htime
          · exact absurd hpur (device_excludes_purchased _ _ _ _ _ _ hdev)

/-- C1 counterexample: in scenario A, user 3 purchased product 103, Fitness
is trending, and the hybrid result contains 103 — taken from the purchase
history via the time-based signal. -/
theorem claim_C1_counterexample :
    hybridA storeMiss = Except.ok
      ([Sum.inr (103, "Recommended because it's trending this season.")],
       [("recommendations:3:Summer",
         [Sum.inr (103, "Recommended because it's trending this season.")])]) ∧
    103 ∈ purchasedIds purchaseA 3 := by
  constructor
  · norm_num [hybridA, recommend_products_hybrid, hybridUncached,
      get_cached_recommendations, storeMiss, hybridCacheKey,
      recommend_popular_trending_products, purchasedIds, dget, dkeys, isNewUser,
      recommend_products_mf, recommend_products_cbf, recommend_products_time_based,
      recommend_products_device_based, kneighborsCosine, simGeQ, dotQ, dvalues, argsortAsc,
      isortS, insertS, fuseSignals, applySignal, signalStep, addScore, addSource,
      sortByScoreDesc, cache_recommendations, explanationTemplate,
      usersA, productsA, signalsA, purchaseA, popularA, defaultCfg,
      List.range_succ, List.enum]
    decide
  · decide

/-- C1 witness: at scenario A, the only purchased id in the result (103)
indeed lies in the time-based recommender's output. -/
theorem claim_C1_witness :
    cacheMissAt storeMiss 3 ["Summer"] ∧
    (∀ pid,
      pid ∈ entryIds
        ([Sum.inr (103, "Recommended because it's trending this season.")] : RecList) →
      pid ∈ purchasedIds purchaseA 3 →
      pid ∈ recommend_products_time_based "Monday" ["Summer"] productsA signalsA) :=
  ⟨Or.inl rfl,
    claim_C1_amended storeMiss "Monday" defaultCfg 3 ["Summer"] usersA productsA signalsA
      [] purchaseA popularA [[0, 0]] [[0, 0]] [(3, 0)] [(103, 0)] [(3, [1, 1])]
      [(103, [1, 1])] 1
      ([Sum.inr (103, "Recommended because it's trending this season.")],
       [("recommendations:3:Summer",
         [Sum.inr (103, "Recommended because it's trending this season.")])])
      (Or.inl rfl)
      (by
        norm_num [hybridA, recommend_products_hybrid, hybridUncached,
          get_cached_recommendations, storeMiss, hybridCacheKey,
          recommend_popular_trending_products, purchasedIds, dget, dkeys, isNewUser,
          recommend_products_mf, recommend_products_cbf, recommend_products_time_based,
          recommend_products_device_based, kneighborsCosine, simGeQ, dotQ, dvalues,
          argsortAsc, isortS, insertS, fuseSignals, applySignal, signalStep, addScore,
          addSource, sortByScoreDesc, cache_recommendations, explanationTemplate,
          usersA, productsA, signalsA, purchaseA, popularA, defaultCfg,
          List.range_succ, List.enum]
        decide)⟩

/-! C9: the popularity ranker. -/

theorem foldl_preserve {α σ : Type} (P : σ → Prop) (f : σ → α → σ)
    (hf : ∀ d a, P d → P (f d a)) : ∀ (l : List α) (d : σ), P d → P (l.foldl f d) := by
  intro l
  induction l with
  | nil => intro d h; exact h
  | cons a l ih => intro d h; exact ih (f d a) (hf d a h)

theorem bumpFreq_values_pos (d : Dict ProductId Nat) (pid : ProductId)
    (h : ∀ kv ∈ d, 1 ≤ kv.2) : ∀ kv ∈ bumpFreq d pid, 1 ≤ kv.2 := by
  intro kv hm
  rw [bumpFreq] at hm
  by_cases hd : pid ∈ dkeys d
  · rw [if_pos hd] at hm
    rcases List.mem_map.mp hm with ⟨kv0, hkv0, heq⟩
    by_cases hp : kv0.1 = pid
    · rw [if_pos hp] at heq
      rw [← heq]
      exact Nat.le_add_left 1 kv0.2
    · rw [if_neg hp] at heq
      rw [← heq]
      exact h kv0 hkv0
  · rw [if_neg hd] at hm
    rcases List.mem_append.mp hm with h1 | h1
    · exact h kv h1
    · have h2 : kv = (pid, 1) := List.mem_singleton.mp h1
      rw [h2]

theorem purchaseFrequency_values_pos (ph : Dict UserId (List Purchase)) :
    ∀ kv ∈ purchaseFrequency ph, 1 ≤ kv.2 := by
  rw [purchaseFrequency]
  refine foldl_preserve (fun d : Dict ProductId Nat => ∀ kv ∈ d, 1 ≤ kv.2) _ ?_ ph []
    (by simp)
  intro d ukv hd
  exact foldl_preserve (fun d2 : Dict ProductId Nat => ∀ kv ∈ d2, 1 ≤ kv.2) _
    (fun d2 p h2 => bumpFreq_values_pos d2 p.1 h2) ukv.2 d hd

theorem foldl_flatten_eq {α σ : Type} (f : σ → α → σ) (L : List (List α)) (b : σ) :
    (L.flatten).foldl f b = L.foldl (fun acc l => l.foldl f acc) b := by
  induction L generalizing b with
  | nil => rfl
  | cons l L ih => rw [List.flatten_cons, List.foldl_append, List.foldl_cons, ih]

theorem purchaseFrequency_eq_foldl (ph : Dict UserId (List Purchase)) :
    purchaseFrequency ph = (purchaseTraversal ph).foldl bumpFreq [] := by
  rw [purchaseFrequency, purchaseTraversal, foldl_flatten_eq, List.foldl_map]
  congr 1
  funext acc ukv
  rw [List.foldl_map]

theorem dkeys_mapBump (d : Dict ProductId Nat) (pid : ProductId) :
    dkeys (d.map (fun kv => if kv.1 = pid then (kv.1, kv.2 + 1) else kv)) = dkeys d := by
  induction d with
  | nil => rfl
  | cons kv d ih =>
    simp only [List.map_cons, dkeys] at ih ⊢
    rw [ih]
    by_cases hp : kv.1 = pid <;> simp [hp]

theorem dkeys_bumpFreq (d : Dict ProductId Nat) (pid : ProductId) :
    dkeys (bumpFreq d pid) = if pid ∈ dkeys d then dkeys d else dkeys d ++ [pid] := by
  rw [bumpFreq]
  split
  case isTrue hm => rw [dkeys_mapBump]
  case isFalse hm => simp [dkeys]

theorem dkeys_foldl_bumpFreq (pids : List ProductId) (acc : Dict ProductId Nat) :
    dkeys (pids.foldl bumpFreq acc) =
      pids.foldl (fun ks x => if x ∈ ks then ks else ks ++ [x]) (dkeys acc) := by
  induction pids generalizing acc with
  | nil => rfl
  | cons p pids ih =>
    rw [List.foldl_cons, List.foldl_cons, ih, dkeys_bumpFreq]

theorem dkeys_purchaseFrequency (ph : Dict UserId (List Purchase)) :
    dkeys (purchaseFrequency ph) = firstOccur (purchaseTraversal ph) := by
  rw [purchaseFrequency_eq_foldl, firstOccur, dkeys_foldl_bumpFreq]
  rfl

theorem mem_foldl_occur (l : List ProductId) (acc : List ProductId) (x : ProductId) :
    x ∈ l.foldl (fun ks y => if y ∈ ks then ks else ks ++ [y]) acc ↔ x ∈ acc ∨ x ∈ l := by
  induction l generalizing acc with
  | nil => simp
  | cons y l ih =>
    rw [List.foldl_cons, ih]
    by_cases hy : y ∈ acc
    · rw [if_pos hy]
      constructor
      · rintro (h | h)
        · exact Or.inl h
        · exact Or.inr (List.mem_cons_of_mem y h)
      · rintro (h | h)
        · exact Or.inl h
        · rcases List.mem_cons.mp h with rfl | h
          · exact Or.inl hy
          · exact Or.inr h
    · rw [if_neg hy]
      simp only [List.mem_append, List.mem_singleton, List.mem_cons]
      tauto

theorem mem_firstOccur (l : List ProductId) (x : ProductId) :
    x ∈ firstOccur l ↔ x ∈ l := by
  rw [firstOccur, mem_foldl_occur]
  simp

theorem mem_purchaseTraversal_elim (ph : Dict UserId (List Purchase)) (pid : ProductId)
    (h : pid ∈ purchaseTraversal ph) : ∃ ukv ∈ ph, ∃ p ∈ ukv.2, p.1 = pid := by
  rw [purchaseTraversal] at h
  rcases List.mem_flatten.mp h with ⟨l, hl, hpid⟩
  rcases List.mem_map.mp hl with ⟨ukv, hukv, rfl⟩
  rcases List.mem_map.mp hpid with ⟨p, hp, hpe⟩
  exact ⟨ukv, hukv, p, hp, hpe⟩

theorem rawPopularity_ok (products : Dict ProductId Product) (freq : Dict ProductId Nat)
    (h : ∀ pid ∈ dkeys freq, pid ∈ dkeys products) :
    ∃ pop, rawPopularity products freq = Except.ok pop ∧ dkeys pop = dkeys freq ∧
      (∀ kv ∈ pop, ∃ fkv ∈ freq, ∃ pr : Product, dget products fkv.1 = some pr ∧
        kv = (fkv.1, (7 : ℚ) / 10 * pr.rating + (3 : ℚ) / 10 * (fkv.2 : ℚ))) := by
  induction freq with
  | nil => exact ⟨[], rfl, rfl, by simp⟩
  | cons kv rest ih =>
    have hk : kv.1 ∈ dkeys products := h kv.1 (by simp [dkeys])
    have hget : ∃ pr, dget products kv.1 = some pr := by
      cases hp : dget products kv.1 with
      | none => exact absurd hk ((dget_eq_none_iff _ _).mp hp)
      | some pr => exact ⟨pr, rfl⟩
    rcases hget with ⟨pr, hpr⟩
    have hrest : ∀ pid ∈ dkeys rest, pid ∈ dkeys products := by
      intro pid hm
      refine h pid ?_
      simp only [dkeys, List.map_cons, List.mem_cons]
      exact Or.inr hm
    rcases ih hrest with ⟨tail, htail, hkeys, hprop⟩
    refine ⟨(kv.1, (7 : ℚ) / 10 * pr.rating + (3 : ℚ) / 10 * (kv.2 : ℚ)) :: tail, ?_, ?_, ?_⟩
    · simp only [rawPopularity, hpr, htail]
    · simp only [dkeys, List.map_cons] at hkeys ⊢
      rw [hkeys]
    · intro kv2 hm
      rcases List.mem_cons.mp hm with rfl | hm
      · exact ⟨kv, List.mem_cons_self _ _, pr, hpr, rfl⟩
      · rcases hprop kv2 hm with ⟨fkv, hf, pr2, hg, he⟩
        exact ⟨fkv, List.mem_cons_of_mem _ hf, pr2, hg, he⟩

theorem mem_normalizePopularity (pop : Dict ProductId ℚ) (e : ProductId × ℚ)
    (h : e ∈ normalizePopularity pop) :
    ∃ kv ∈ pop, e = (kv.1, kv.2 / maxOrDefault (dvalues pop) 1) := by
  simp only [normalizePopularity] at h
  rcases List.mem_map.mp h with ⟨kv, hkv, rfl⟩
  exact ⟨kv, hkv, rfl⟩

theorem dkeys_normalizePopularity (pop : Dict ProductId ℚ) :
    dkeys (normalizePopularity pop) = dkeys pop := by
  simp only [normalizePopularity, dkeys, List.map_map]
  rfl

/-- C9: `compute_product_popularity` (with its default weights) returns, for
exactly the products with at least one purchase, normalized scores in
`[0, 1]`, sorted non-increasing by score, with equal-score products kept in
the first-occurrence order of the purchase-history traversal (the catalog
covers all purchased products and ratings are non-negative, per the data
model). -/
theorem claim_C9_popularity (ph : Dict UserId (List Purchase))
    (products : Dict ProductId Product)
    (hcat : ∀ ukv ∈ ph, ∀ p ∈ ukv.2, p.1 ∈ dkeys products)
    (hrat : ∀ kv ∈ products, 0 ≤ kv.2.rating) :
    ∃ pop, rawPopularity products (purchaseFrequency ph) = Except.ok pop ∧
      compute_product_popularity ph products =
        Except.ok (sortByScoreDesc (normalizePopularity pop)) ∧
      (∀ pid, pid ∈ dkeys (sortByScoreDesc (normalizePopularity pop)) ↔
        purchasedAnywhere ph pid) ∧
      (∀ e ∈ sortByScoreDesc (normalizePopularity pop), 0 ≤ e.2 ∧ e.2 ≤ 1) ∧
      (sortByScoreDesc (normalizePopularity pop)).Pairwise (fun a b => b.2 ≤ a.2) ∧
      (∀ q, (sortByScoreDesc (normalizePopularity pop)).filter
          (fun e => decide (e.2 = q)) =
        (normalizePopularity pop).filter (fun e => decide (e.2 = q))) ∧
      dkeys (purchaseFrequency ph) = firstOccur (purchaseTraversal ph) := by
  have hfk : ∀ pid ∈ dkeys (purchaseFrequency ph), pid ∈ dkeys products := by
    intro pid hm
    rw [dkeys_purchaseFrequency] at hm
    have ht : pid ∈ purchaseTraversal ph := (mem_firstOccur _ _).mp hm
    rcases mem_purchaseTraversal_elim ph pid ht with ⟨ukv, hukv, p, hp, rfl⟩
    exact hcat ukv hukv p hp
  rcases rawPopularity_ok products (purchaseFrequency ph) hfk with ⟨pop, hpop, hkeys, hprop⟩
  have hvalues : ∀ x ∈ dvalues pop, 0 < x := by
    intro x hx
    rcases List.mem_map.mp hx with ⟨kv, hkv, rfl⟩
    rcases hprop kv hkv with ⟨fkv, hf, pr, hg, he⟩
    have hr : 0 ≤ pr.rating := hrat _ (dget_mem _ _ _ hg)
    have hfv : (1 : ℚ) ≤ (fkv.2 : ℚ) := by
      exact_mod_cast purchaseFrequency_values_pos ph fkv hf
    have h1 : 0 ≤ (7 : ℚ) / 10 * pr.rating := mul_nonneg (by norm_num) hr
    have h2 : 0 < (3 : ℚ) / 10 * (fkv.2 : ℚ) :=
      mul_pos (by norm_num) (lt_of_lt_of_le one_pos hfv)
    rw [he]
    simp only
    linarith
  refine ⟨pop, hpop, ?_, ?_, ?_, sortByScoreDesc_pairwise _,
    fun q => filter_sortByScoreDesc _ q, dkeys_purchaseFrequency ph⟩
  · simp only [compute_product_popularity, hpop]
  · intro pid
    have hstep1 : pid ∈ dkeys (sortByScoreDesc (normalizePopularity pop)) ↔
        pid ∈ dkeys (normalizePopularity pop) :=
      ((sortByScoreDesc_perm _).map Prod.fst).mem_iff
    rw [hstep1, dkeys_normalizePopularity, hkeys, dkeys_purchaseFrequency,
      mem_firstOccur]
    exact Iff.rfl
  · intro e he
    have he2 : e ∈ normalizePopularity pop := (sortByScoreDesc_perm _).mem_iff.mp he
    rcases mem_normalizePopularity pop e he2 with ⟨kv, hkv, rfl⟩
    have hvm : kv.2 ∈ dvalues pop := List.mem_map.mpr ⟨kv, hkv, rfl⟩
    have hpos : 0 < kv.2 := hvalues _ hvm
    have hle : kv.2 ≤ maxOrDefault (dvalues pop) 1 := le_maxOrDefault _ _ _ hvm
    have hmne : dvalues pop ≠ [] := List.ne_nil_of_mem hvm
    have hmpos : 0 < maxOrDefault (dvalues pop) 1 := maxOrDefault_pos _ _ hvalues hmne
    constructor
    · exact div_nonneg (le_of_lt hpos) (le_of_lt hmpos)
    · exact (div_le_one hmpos).mpr hle

/-- C9 witness: the two-product purchase history of scenario W. -/
theorem claim_C9_witness :
    (∀ ukv ∈ purchaseW, ∀ p ∈ ukv.2, p.1 ∈ dkeys productsW) ∧
    (∀ kv ∈ productsW, 0 ≤ kv.2.rating) ∧
    (∃ pop, rawPopularity productsW (purchaseFrequency purchaseW) = Except.ok pop ∧
      compute_product_popularity purchaseW productsW =
        Except.ok (sortByScoreDesc (normalizePopularity pop)) ∧
      (∀ pid, pid ∈ dkeys (sortByScoreDesc (normalizePopularity pop)) ↔
        purchasedAnywhere purchaseW pid) ∧
      (∀ e ∈ sortByScoreDesc (normalizePopularity pop), 0 ≤ e.2 ∧ e.2 ≤ 1) ∧
      (sortByScoreDesc (normalizePopularity pop)).Pairwise (fun a b => b.2 ≤ a.2) ∧
      (∀ q, (sortByScoreDesc (normalizePopularity pop)).filter
          (fun e => decide (e.2 = q)) =
        (normalizePopularity pop).filter (fun e => decide (e.2 = q))) ∧
      dkeys (purchaseFrequency purchaseW) = firstOccur (purchaseTraversal purchaseW)) :=
  ⟨by decide, by norm_num [productsW, List.forall_mem_cons],
    claim_C9_popularity purchaseW productsW (by decide)
      (by norm_num [productsW, List.forall_mem_cons])⟩

end RecSys
